import Mathlib

/-!
Shallow embedding of the virtual-memory core of a Pintos variant:
the swap store (src/vm/swap.c), the frame table with clock eviction
(src/vm/frame.c, shipped as part of src/vm/swap.h in this tree), the
supplemental page table and fault resolver (src/vm/page.c), and the
mmap system call (src/userprog/syscall.c).

Machine integers are modelled as Nat with explicit reduction modulo
2 ^ 32 where 32-bit overflow matters.  Fallible or panicking kernel
paths return Except Panic.  Mutable kernel state is threaded through a
single VMState record; every map is an association list so that the
whole state has decidable equality and concrete runs evaluate by
decide or rfl.
-/

namespace PintosVM

abbrev Panic := String

def PGSIZE : Nat := 4096

def BLOCK_SECTOR_SIZE : Nat := 512

/-- SECTORS_PER_PAGE in src/vm/swap.c: PGSIZE / BLOCK_SECTOR_SIZE. -/
def SECTORS_PER_PAGE : Nat := PGSIZE / BLOCK_SECTOR_SIZE

/-- BITMAP_ERROR is SIZE_MAX; Pintos runs on 32-bit x86, so it is 2^32 - 1. -/
def BITMAP_ERROR : Nat := 2 ^ 32 - 1

/-- Modulus of the 32-bit machine words used for sector indices. -/
def U32 : Nat := 2 ^ 32

/-- Association-list lookup, the model of every pointer-keyed hash or map. -/
def lookupA {α : Type} (l : List (Nat × α)) (k : Nat) : Option α :=
  match l with
  | [] => none
  | (k2, v) :: rest => if k2 = k then some v else lookupA rest k

/-- Association-list update-or-append, the model of writing through a map. -/
def setA {α : Type} (l : List (Nat × α)) (k : Nat) (v : α) : List (Nat × α) :=
  match l with
  | [] => [(k, v)]
  | (k2, v2) :: rest => if k2 = k then (k2, v) :: rest else (k2, v2) :: setA rest k v

/-- enum page_status from src/vm/page.h (src/unnamed/part_001). -/
inductive PageStatus where
  | ALL_ZEROS
  | ON_FRAME
  | ON_SWAP
  | FROM_FILESYS
deriving DecidableEq, Repr

/-- struct supplemental_page_table_entry from src/vm/page.h.  kpage is an
Option: none models the NULL pointer. -/
structure SPTE where
  upage : Nat
  kpage : Option Nat
  status : PageStatus
  is_dirty : Bool
  swap_index : Nat
  file : Nat
  file_offset : Nat
  read_bytes : Nat
  zero_bytes : Nat
  writable : Bool
deriving DecidableEq, Repr

/-- struct frame_table_entry from src/vm/frame.c.  The t field (owner
thread pointer) is modelled by the owner thread id. -/
structure FTE where
  kpage : Nat
  upage : Nat
  tid : Nat
  is_pinned : Bool
deriving DecidableEq, Repr

/-- Modelled from the spec: the hardware page directory collaborator
(userprog/pagedir.c is not under src/).  Spec section 6 lists set_page,
clear_page, is_accessed, set_accessed, is_dirty, set_dirty; accessed and
dirty bits are per address (user or kernel alias), mappings map a user
page to a frame with a writable bit.  clear_page removes only the
mapping and leaves the dirty and accessed bits in place. -/
structure PageDir where
  accessed : List (Nat × Bool)
  dirty : List (Nat × Bool)
  mapping : List (Nat × (Nat × Bool))
deriving DecidableEq, Repr

def pagedir_is_accessed (pd : PageDir) (addr : Nat) : Bool :=
  (lookupA pd.accessed addr).getD false

def pagedir_set_accessed (pd : PageDir) (addr : Nat) (v : Bool) : PageDir :=
  { pd with accessed := setA pd.accessed addr v }

def pagedir_is_dirty (pd : PageDir) (addr : Nat) : Bool :=
  (lookupA pd.dirty addr).getD false

def pagedir_set_dirty (pd : PageDir) (addr : Nat) (v : Bool) : PageDir :=
  { pd with dirty := setA pd.dirty addr v }

def pagedir_clear_page (pd : PageDir) (upage : Nat) : PageDir :=
  { pd with mapping := pd.mapping.filter (fun m => ¬ m.1 = upage) }

/-- struct mmap_desc from src/userprog/syscall.c. -/
structure MmapDesc where
  id : Int
  file : Nat
  addr : Nat
  size : Nat
deriving DecidableEq, Repr

/-- The whole mutable kernel state the embedded operations touch.
frames is both the kpage-keyed hash and the insertion-ordered ring of
src/vm/frame.c (one list, kpage unique).  clockPtr is the static
clock_ptr: none models NULL, some i an iterator at ring position i,
and i = frames.length models the list_end tail sentinel.  sentinel is
the junk frame_table_entry that clock_frame_next reads when the
iterator is advanced onto the tail sentinel (the source dereferences
list_entry of list_end there, an out-of-bounds read; the model makes
the garbage it sees an explicit, unconstrained state component).
userPool and kernelPool are the free lists of the two palloc pools;
mallocOk and setPageOk are oracles for the fallible bookkeeping malloc
in vm_frame_alloc and the internal allocation of pagedir_set_page.
sectors is the swap block content, swapAvail the swap bitmap (true =
free, as in src/vm/swap.c), writeLog the sequence of file_write_at
calls issued so far. -/
structure VMState where
  frames : List FTE
  clockPtr : Option Nat
  sentinel : FTE
  pagedirs : List (Nat × PageDir)
  supts : List (Nat × List SPTE)
  currentTid : Nat
  swapAvail : List Bool
  blockSize : Nat
  sectors : List (Nat × Nat)
  ram : List (Nat × List Nat)
  userPool : List Nat
  kernelPool : List Nat
  mallocOk : Bool
  setPageOk : Bool
  fileLens : List (Nat × Nat)
  filePos : List (Nat × Nat)
  reopenMap : List (Nat × Nat)
  fdTable : List (Nat × Nat)
  mmapList : List MmapDesc
  writeLog : List (Nat × Nat × Nat × List Nat)
deriving DecidableEq

/-- The pagedir of a thread, as reached through a thread pointer. -/
def pdOf (st : VMState) (tid : Nat) : PageDir :=
  (lookupA st.pagedirs tid).getD ⟨[], [], []⟩

def setPd (st : VMState) (tid : Nat) (pd : PageDir) : VMState :=
  { st with pagedirs := setA st.pagedirs tid pd }

/-- The supplemental page table of a thread. -/
def suptOf (st : VMState) (tid : Nat) : List SPTE :=
  (lookupA st.supts tid).getD []

def setSupt (st : VMState) (tid : Nat) (t : List SPTE) : VMState :=
  { st with supts := setA st.supts tid t }

/-- One sector of swap block content; unwritten sectors read as 0. -/
def sectorAt (st : VMState) (s : Nat) : Nat :=
  (lookupA st.sectors s).getD 0

/-- Sector i of the RAM frame at kpage, the data vm_swap_out reads. -/
def ramSector (st : VMState) (kpage i : Nat) : Nat :=
  ((lookupA st.ram kpage).getD []).getD i 0

/-! ## Swap store, src/vm/swap.c -/

/-- Modelled from the spec: bitmap_scan over the swap bitmap
(lib/kernel/bitmap.c is not under src/).  Spec section 4.1: out finds
the first free slot; the bitmap holds one bit per slot.  Returns the
lowest index whose bit is true, or BITMAP_ERROR when none is. -/
def bitmap_scan (b : List Bool) : Nat :=
  match b with
  | [] => BITMAP_ERROR
  | v :: rest => if v then 0 else
      match bitmap_scan rest with
      | n => if n = BITMAP_ERROR then BITMAP_ERROR else n + 1

/-- Modelled from the spec: bitmap_set (lib/kernel/bitmap.c is not
under src/); an index at or past the bit count is fatal (spec section
4.1 Errors: using an index at or past slot_count is fatal). -/
def bitmap_set (b : List Bool) (idx : Nat) (v : Bool) : Except Panic (List Bool) :=
  if idx < b.length then .ok (b.set idx v) else .error "bitmap_set: index out of range"

/-- Modelled from the spec: bitmap_test (lib/kernel/bitmap.c is not
under src/); out-of-range test is fatal as above. -/
def bitmap_test (b : List Bool) (idx : Nat) : Except Panic Bool :=
  match b.get? idx with
  | some v => .ok v
  | none => .error "bitmap_test: index out of range"

/-- Modelled from the spec: block_write of the block device collaborator
(devices/block.c is not under src/).  The device has blockSize sectors;
an access at or past the end is fatal (spec section 4.1 Errors).  The
sector argument is a 32-bit block_sector_t, already reduced mod 2^32 by
the caller. -/
def block_write (st : VMState) (sector v : Nat) : Except Panic VMState :=
  if sector < st.blockSize then
    .ok { st with sectors := setA st.sectors sector v }
  else .error "block device: access past end of device"

/-- The body of the write loop of vm_swap_out: block_write of sector i
of the page for each i below SECTORS_PER_PAGE, at 32-bit sector index
swap_index * SECTORS_PER_PAGE + i. -/
def swapWriteLoop (page : Nat → Nat) (swap_index : Nat) :
    Nat → VMState → Except Panic VMState
  | 0, st => .ok st
  | i + 1, st =>
      match block_write st ((swap_index * SECTORS_PER_PAGE + (SECTORS_PER_PAGE - (i + 1))) % U32)
          (page (SECTORS_PER_PAGE - (i + 1))) with
      | .error e => .error e
      | .ok st2 => swapWriteLoop page swap_index i st2

/-- vm_swap_out from src/vm/swap.c.  page gives the sector images of the
page being written (the source passes a kernel pointer and reads the
frame behind it; the ASSERT that the pointer is above PHYS_BASE is a
pointer-layout check with no shallow counterpart).  bitmap_scan picks
the first free slot or BITMAP_ERROR; the write loop and the final
bitmap_set run unconditionally, exactly as in the source. -/
def vm_swap_out (st : VMState) (page : Nat → Nat) : Except Panic (Nat × VMState) :=
  let swap_index := bitmap_scan st.swapAvail
  match swapWriteLoop page swap_index SECTORS_PER_PAGE st with
  | .error e => .error e
  | .ok st2 =>
      match bitmap_set st2.swapAvail swap_index false with
      | .error e => .error e
      | .ok b => .ok (swap_index, { st2 with swapAvail := b })

/-- vm_swap_in from src/vm/swap.c.  Reads the slot sectors into the
destination frame; the destination RAM content itself is not tracked,
only the bitmap transition and the panics are.  swap_size is the bitmap
length.  Panics when the index is out of range or the slot is free. -/
def vm_swap_in (st : VMState) (swap_index : Nat) : Except Panic VMState :=
  if swap_index < st.swapAvail.length then
    match bitmap_test st.swapAvail swap_index with
    | .error e => .error e
    | .ok free =>
        if free then .error "Invalid access to unassigned swap block."
        else
          match bitmap_set st.swapAvail swap_index true with
          | .error e => .error e
          | .ok b => .ok { st with swapAvail := b }
  else .error "vm_swap_in: index out of range"

/-- vm_swap_free from src/vm/swap.c. -/
def vm_swap_free (st : VMState) (swap_index : Nat) : Except Panic VMState :=
  if swap_index < st.swapAvail.length then
    match bitmap_test st.swapAvail swap_index with
    | .error e => .error e
    | .ok free =>
        if free then .error "Invalid free request to unassigned swap block."
        else
          match bitmap_set st.swapAvail swap_index true with
          | .error e => .error e
          | .ok b => .ok { st with swapAvail := b }
  else .error "vm_swap_free: index out of range"

/-! ## Supplemental page table, src/vm/page.c (basic operations) -/

/-- hash_find over the page_map keyed by upage (spte_less_func compares
upage), as used by vm_supt_find. -/
def sptFind (t : List SPTE) (upage : Nat) : Option SPTE :=
  t.find? (fun e => e.upage = upage)

/-- vm_supt_find from src/vm/page.c, through a thread supt pointer. -/
def vm_supt_find (st : VMState) (suptKey upage : Nat) : Option SPTE :=
  sptFind (suptOf st suptKey) upage

/-- vm_supt_has_entry from src/vm/page.c. -/
def vm_supt_has_entry (st : VMState) (suptKey upage : Nat) : Bool :=
  (vm_supt_find st suptKey upage).isSome

/-- vm_supt_set_swap from src/vm/page.c: transition an existing entry to
ON_SWAP, clearing kpage and recording the slot; false when no entry. -/
def vm_supt_set_swap (st : VMState) (suptKey page swap_index : Nat) : Bool × VMState :=
  match sptFind (suptOf st suptKey) page with
  | none => (false, st)
  | some _ =>
      (true, setSupt st suptKey ((suptOf st suptKey).map (fun e =>
        if e.upage = page then
          { e with kpage := none, status := .ON_SWAP, swap_index := swap_index }
        else e)))

/-- vm_supt_set_dirty from src/vm/page.c: OR the value into is_dirty;
a missing entry is fatal. -/
def vm_supt_set_dirty (st : VMState) (suptKey page : Nat) (value : Bool) :
    Except Panic VMState :=
  match sptFind (suptOf st suptKey) page with
  | none => .error "Request page does not exist."
  | some _ =>
      .ok (setSupt st suptKey ((suptOf st suptKey).map (fun e =>
        if e.upage = page then { e with is_dirty := e.is_dirty || value } else e)))

/-! ## Frame table, src/vm/frame.c -/

/-- hash_find over frame_hash keyed by kpage (frame_less_func compares
kpage), as used by vm_frame_do_free and vm_frame_set_pinned. -/
def frameFind (frames : List FTE) (kpage : Nat) : Option FTE :=
  frames.find? (fun e => e.kpage = kpage)

/-- clock_frame_next from src/vm/frame.c.  Panics on an empty ring.
When clock_ptr is NULL or sits at list_end it restarts at list_begin,
otherwise it advances one step; advancing past the last element lands
on the list_end tail sentinel (position frames.length), and the
list_entry read there yields the unconstrained sentinel junk. -/
def clock_frame_next (st : VMState) : Except Panic (FTE × VMState) :=
  if st.frames.isEmpty then .error "Evict rejected, frame table is now empty."
  else
    let idx :=
      match st.clockPtr with
      | none => 0
      | some i => if i = st.frames.length then 0 else i + 1
    .ok (st.frames.getD idx st.sentinel, { st with clockPtr := some idx })

/-- The scan loop of frame_to_be_evicted: for i from 0 while i <= 2n,
one clock_frame_next per iteration; pinned entries are skipped, entries
whose accessed bit (in the pagedir passed by the caller, keyed pdKey)
is set get the bit cleared and are skipped, the first remaining entry
is the victim.  fuel is the number of iterations left; the returned Nat
counts the inspections performed. -/
def evictLoop (pdKey : Nat) : Nat → VMState → Nat → Nat × Except Panic (FTE × VMState)
  | 0, _, count => (count, .error "Cannot evict any frame.")
  | fuel + 1, st, count =>
      match clock_frame_next st with
      | .error e => (count, .error e)
      | .ok (entry, st2) =>
          if entry.is_pinned then evictLoop pdKey fuel st2 (count + 1)
          else if pagedir_is_accessed (pdOf st2 pdKey) entry.upage then
            evictLoop pdKey fuel
              (setPd st2 pdKey (pagedir_set_accessed (pdOf st2 pdKey) entry.upage false))
              (count + 1)
          else (count + 1, .ok (entry, st2))

/-- frame_to_be_evicted from src/vm/frame.c.  pdKey identifies the
pagedir argument; the caller vm_frame_alloc passes the pagedir of the
current (evicting) thread.  The for loop runs for i = 0 .. 2n
inclusive, that is 2n + 1 iterations, then panics. -/
def frame_to_be_evicted (st : VMState) (pdKey : Nat) :
    Nat × Except Panic (FTE × VMState) :=
  let n := st.frames.length
  if n = 0 then (0, .error "Evict rejected, frame table is now empty.")
  else evictLoop pdKey (2 * n + 1) st 0

/-- Modelled from the spec: the scan loop as section 4.2 step 3 words
it, consulting and clearing the accessed bit in the pagedir of the
entry owner (the owner hardware accessed bit for upage), not in the
pagedir of the evicting thread.  Used only to compare against the
source behaviour. -/
def evictLoopOwner : Nat → VMState → Nat → Nat × Except Panic (FTE × VMState)
  | 0, _, count => (count, .error "Cannot evict any frame.")
  | fuel + 1, st, count =>
      match clock_frame_next st with
      | .error e => (count, .error e)
      | .ok (entry, st2) =>
          if entry.is_pinned then evictLoopOwner fuel st2 (count + 1)
          else if pagedir_is_accessed (pdOf st2 entry.tid) entry.upage then
            evictLoopOwner fuel
              (setPd st2 entry.tid (pagedir_set_accessed (pdOf st2 entry.tid) entry.upage false))
              (count + 1)
          else (count + 1, .ok (entry, st2))

/-- Modelled from the spec: frame_to_be_evicted with the owner-pagedir
accessed bit of section 4.2 step 3, same ring walk and same bound. -/
def frame_to_be_evicted_owner (st : VMState) : Nat × Except Panic (FTE × VMState) :=
  let n := st.frames.length
  if n = 0 then (0, .error "Evict rejected, frame table is now empty.")
  else evictLoopOwner (2 * n + 1) st 0

/-- vm_frame_do_free from src/vm/frame.c: look the entry up by kpage,
panic when absent, remove it from hash and ring, return the physical
page to the (user) palloc pool when free_page is set.  The
is_kernel_vaddr and pg_ofs ASSERTs are pointer-layout checks with no
shallow counterpart. -/
def vm_frame_do_free (st : VMState) (kpage : Nat) (free_page : Bool) :
    Except Panic VMState :=
  match frameFind st.frames kpage with
  | none => .error "The page to be freed does not exist."
  | some _ =>
      let st2 := { st with frames := st.frames.eraseP (fun e => e.kpage = kpage) }
      if free_page then .ok { st2 with userPool := kpage :: st2.userPool }
      else .ok st2

/-- vm_frame_set_pinned from src/vm/frame.c: panic when the frame is
unknown, otherwise write the pin flag. -/
def vm_frame_set_pinned (st : VMState) (kpage : Nat) (v : Bool) : Except Panic VMState :=
  match frameFind st.frames kpage with
  | none => .error "The frame to be pinned of unpinned does not exist."
  | some _ =>
      .ok { st with frames := st.frames.map (fun e =>
        if e.kpage = kpage then { e with is_pinned := v } else e) }

/-- The tail of vm_frame_alloc after a physical page has been obtained:
malloc the bookkeeping entry (NULL return when it fails, leaking the
physical page exactly as the source does), fill it with the current
thread as owner and pinned = true, hash_insert and list_push_back. -/
def vm_frame_alloc_finish (st : VMState) (upage frame_page : Nat) :
    Except Panic (Option Nat × VMState) :=
  if st.mallocOk then
    .ok (some frame_page,
      { st with frames := st.frames ++
          [{ kpage := frame_page, upage := upage, tid := st.currentTid, is_pinned := true }] })
  else .ok (none, st)

/-- vm_frame_alloc from src/vm/frame.c.  palloc_get_page pops the user
pool; when the pool is empty the clock scan picks a victim using the
pagedir of the current thread, the victim mapping is removed from the
owner pagedir, dirtiness of both aliases is read from the owner
pagedir, the victim frame is written to swap, the owner SPT entry is
switched to ON_SWAP with the dirtiness ORed in, the frame entry is
freed with the physical page returned, and the retried palloc must
succeed.  The ASSERTs on the victim thread pointer are pointer-validity
checks with no shallow counterpart. -/
def vm_frame_alloc (st : VMState) (upage : Nat) : Except Panic (Option Nat × VMState) :=
  match st.userPool with
  | frame_page :: rest => vm_frame_alloc_finish { st with userPool := rest } upage frame_page
  | [] =>
      match (frame_to_be_evicted st st.currentTid).2 with
      | .error e => .error e
      | .ok (victim, st2) =>
          let st3 := setPd st2 victim.tid (pagedir_clear_page (pdOf st2 victim.tid) victim.upage)
          let is_dirty := pagedir_is_dirty (pdOf st3 victim.tid) victim.upage ||
            pagedir_is_dirty (pdOf st3 victim.tid) victim.kpage
          match vm_swap_out st3 (ramSector st3 victim.kpage) with
          | .error e => .error e
          | .ok (swap_index, st4) =>
              let st5 := (vm_supt_set_swap st4 victim.tid victim.upage swap_index).2
              match vm_supt_set_dirty st5 victim.tid victim.upage is_dirty with
              | .error e => .error e
              | .ok st6 =>
                  match vm_frame_do_free st6 victim.kpage true with
                  | .error e => .error e
                  | .ok st7 =>
                      match st7.userPool with
                      | [] => .error "ASSERT failed: frame_page != NULL"
                      | frame_page :: rest2 =>
                          vm_frame_alloc_finish { st7 with userPool := rest2 } upage frame_page

/-- vm_frame_free from src/vm/frame.c. -/
def vm_frame_free (st : VMState) (kpage : Nat) : Except Panic VMState :=
  vm_frame_do_free st kpage true

/-- vm_frame_remove_entry from src/vm/frame.c. -/
def vm_frame_remove_entry (st : VMState) (kpage : Nat) : Except Panic VMState :=
  vm_frame_do_free st kpage false

/-- vm_frame_pin from src/vm/frame.c. -/
def vm_frame_pin (st : VMState) (kpage : Nat) : Except Panic VMState :=
  vm_frame_set_pinned st kpage true

/-- vm_frame_unpin from src/vm/frame.c. -/
def vm_frame_unpin (st : VMState) (kpage : Nat) : Except Panic VMState :=
  vm_frame_set_pinned st kpage false

/-! ## Filesystem collaborators (not under src/) -/

/-- Modelled from the spec: file_length of the filesystem collaborator
(spec section 6). -/
def file_length (st : VMState) (file : Nat) : Nat :=
  (lookupA st.fileLens file).getD 0

/-- Modelled from the spec: file_seek sets the file position. -/
def file_seek (st : VMState) (file pos : Nat) : VMState :=
  { st with filePos := setA st.filePos file pos }

/-- Modelled from the spec: file_read returns the number of bytes
actually read, the minimum of the request and the bytes remaining past
the current position, advancing the position; section 4.4 step 4
acknowledges the read may underflow the request. -/
def file_read (st : VMState) (file count : Nat) : Nat × VMState :=
  let pos := (lookupA st.filePos file).getD 0
  let n := min count (file_length st file - pos)
  (n, { st with filePos := setA st.filePos file (pos + n) })

/-- Modelled from the spec: file_write_at writes bytes at an offset
without moving the position; the model records the call in the write
log together with the data written. -/
def file_write_at (st : VMState) (file : Nat) (data : List Nat) (bytes offset : Nat) :
    VMState :=
  { st with writeLog := st.writeLog ++ [(file, offset, bytes, data)] }

/-- Modelled from the spec: file_reopen returns a private handle for
the same file or NULL; the reopenMap of the state decides, none
modelling failure. -/
def file_reopen (st : VMState) (file : Nat) : Option Nat :=
  lookupA st.reopenMap file

/-- Modelled from the spec: pagedir set_page installs the mapping with
the given writability and may fail when its internal page-table
allocation fails; the setPageOk oracle decides the outcome. -/
def pagedir_set_page (st : VMState) (pdKey upage kpage : Nat) (writable : Bool) :
    Bool × VMState :=
  if st.setPageOk then
    (true, setPd st pdKey
      { pdOf st pdKey with mapping := setA (pdOf st pdKey).mapping upage (kpage, writable) })
  else (false, st)

/-! ## Installers and resolver, src/vm/page.c -/

/-- vm_supt_install_frame from src/vm/page.c: malloc a fresh entry with
status ON_FRAME, the given kpage and swap_index = -1 (2^32 - 1 as
uint32), then hash_insert; a previous entry makes it return false.  The
file fields are left uninitialised by the source; the model fixes them
at zero, no claim depends on them.  The malloc here is unchecked in the
source. -/
def vm_supt_install_frame (st : VMState) (suptKey upage : Nat) (kpage : Option Nat) :
    Bool × VMState :=
  match sptFind (suptOf st suptKey) upage with
  | some _ => (false, st)
  | none =>
      (true, setSupt st suptKey (suptOf st suptKey ++
        [{ upage := upage, kpage := kpage, status := .ON_FRAME, is_dirty := false,
           swap_index := U32 - 1, file := 0, file_offset := 0, read_bytes := 0,
           zero_bytes := 0, writable := false }]))

/-- vm_supt_install_zeropage from src/vm/page.c: fresh ALL_ZEROS entry
with kpage = NULL; a duplicate is fatal.  swap_index and the file
fields are left uninitialised by the source; the model fixes them at
zero. -/
def vm_supt_install_zeropage (st : VMState) (suptKey upage : Nat) :
    Except Panic VMState :=
  match sptFind (suptOf st suptKey) upage with
  | some _ => .error "Duplicated supt entry for zeropage."
  | none =>
      .ok (setSupt st suptKey (suptOf st suptKey ++
        [{ upage := upage, kpage := none, status := .ALL_ZEROS, is_dirty := false,
           swap_index := 0, file := 0, file_offset := 0, read_bytes := 0,
           zero_bytes := 0, writable := false }]))

/-- vm_supt_install_filesys from src/vm/page.c: fresh FROM_FILESYS
entry with kpage = NULL and the file backing recorded; a duplicate is
fatal.  swap_index is left uninitialised by the source; the model fixes
it at zero. -/
def vm_supt_install_filesys (st : VMState) (suptKey upage file offset read_bytes
    zero_bytes : Nat) (writable : Bool) : Except Panic VMState :=
  match sptFind (suptOf st suptKey) upage with
  | some _ => .error "Duplicated supt entry for filesys-page."
  | none =>
      .ok (setSupt st suptKey (suptOf st suptKey ++
        [{ upage := upage, kpage := none, status := .FROM_FILESYS, is_dirty := false,
           swap_index := 0, file := file, file_offset := offset,
           read_bytes := read_bytes, zero_bytes := zero_bytes, writable := writable }]))

/-- vm_load_page_from_filesys from src/vm/page.c: seek to the backing
offset, read read_bytes (false on a short read), assert the
read/zero split covers the page, zero the tail (frame byte content is
not tracked). -/
def vm_load_page_from_filesys (st : VMState) (spte : SPTE) :
    Except Panic (Bool × VMState) :=
  let st1 := file_seek st spte.file spte.file_offset
  match file_read st1 spte.file spte.read_bytes with
  | (n, st2) =>
      if n ≠ spte.read_bytes then .ok (false, st2)
      else if spte.read_bytes + spte.zero_bytes = PGSIZE then .ok (true, st2)
      else .error "ASSERT failed: read_bytes + zero_bytes == PGSIZE"

/-- vm_load_page from src/vm/page.c.  suptKey and pdKey identify the
supt and pagedir arguments.  The source keeps the spte pointer obtained
before vm_frame_alloc and reads through it afterwards; the model
re-fetches the entry by upage from the post-alloc state (no path in
between removes it), falling back to the pre-alloc value. -/
def vm_load_page (st : VMState) (suptKey pdKey upage : Nat) :
    Except Panic (Bool × VMState) :=
  match vm_supt_find st suptKey upage with
  | none => .ok (false, st)
  | some spte0 =>
      if spte0.status = .ON_FRAME then .ok (true, st)
      else
        match vm_frame_alloc st upage with
        | .error e => .error e
        | .ok (none, st1) => .ok (false, st1)
        | .ok (some frame_page, st1) =>
            let spte := (vm_supt_find st1 suptKey upage).getD spte0
            let popRes : Except Panic (Bool × Bool × VMState) :=
              match spte.status with
              | .ALL_ZEROS => .ok (true, true, st1)
              | .ON_FRAME => .ok (true, true, st1)
              | .ON_SWAP =>
                  match vm_swap_in st1 spte.swap_index with
                  | .error e => .error e
                  | .ok st2 => .ok (true, true, st2)
              | .FROM_FILESYS =>
                  match vm_load_page_from_filesys st1 spte with
                  | .error e => .error e
                  | .ok (ok, st2) => .ok (ok, spte.writable, st2)
            match popRes with
            | .error e => .error e
            | .ok (false, _, st2) =>
                match vm_frame_free st2 frame_page with
                | .error e => .error e
                | .ok st3 => .ok (false, st3)
            | .ok (true, writable, st2) =>
                match pagedir_set_page st2 pdKey upage frame_page writable with
                | (false, st3) =>
                    match vm_frame_free st3 frame_page with
                    | .error e => .error e
                    | .ok st4 => .ok (false, st4)
                | (true, st3) =>
                    let st4 := setSupt st3 suptKey ((suptOf st3 suptKey).map (fun e =>
                      if e.upage = upage then
                        { e with kpage := some frame_page, status := .ON_FRAME }
                      else e))
                    let st5 := setPd st4 pdKey
                      (pagedir_set_dirty (pdOf st4 pdKey) frame_page false)
                    match vm_frame_unpin st5 frame_page with
                    | .error e => .error e
                    | .ok st6 => .ok (true, st6)

/-- vm_supt_munmap from src/vm/page.c: write-back of one page at unmap
time.  ON_FRAME pages are pinned, written back from the live user
mapping when an alias is dirty, freed and unmapped; ON_SWAP pages are
read into a kernel-pool scratch frame and written back when dirty,
otherwise their slot is freed; FROM_FILESYS needs nothing; finally the
SPT entry is deleted.  A missing entry is fatal.  Passing a NULL
scratch frame to vm_swap_in trips its pointer ASSERT in the source;
the model panics when the kernel pool is empty. -/
def vm_supt_munmap (st : VMState) (suptKey pdKey page file offset bytes : Nat) :
    Except Panic (Bool × VMState) :=
  match vm_supt_find st suptKey page with
  | none => .error "Some page is missing."
  | some spte =>
      let pinned : Except Panic VMState :=
        if spte.status = .ON_FRAME then
          match spte.kpage with
          | none => .error "ASSERT failed: spte kpage != NULL"
          | some k => vm_frame_pin st k
        else .ok st
      match pinned with
      | .error e => .error e
      | .ok st1 =>
          let afterCases : Except Panic VMState :=
            match spte.status with
            | .ON_FRAME =>
                match spte.kpage with
                | none => .error "ASSERT failed: spte kpage != NULL"
                | some k =>
                    let is_dirty := spte.is_dirty ||
                      pagedir_is_dirty (pdOf st1 pdKey) spte.upage ||
                      pagedir_is_dirty (pdOf st1 pdKey) k
                    let st2 := if is_dirty then
                        file_write_at st1 file ((lookupA st1.ram k).getD []) bytes offset
                      else st1
                    match vm_frame_free st2 k with
                    | .error e => .error e
                    | .ok st3 =>
                        .ok (setPd st3 pdKey (pagedir_clear_page (pdOf st3 pdKey) spte.upage))
            | .ON_SWAP =>
                let is_dirty := spte.is_dirty ||
                  pagedir_is_dirty (pdOf st1 pdKey) spte.upage
                if is_dirty then
                  match st1.kernelPool with
                  | [] => .error "ASSERT failed: page >= PHYS_BASE"
                  | tmp :: restPool =>
                      let slotData := (List.range SECTORS_PER_PAGE).map (fun i =>
                        sectorAt st1 (spte.swap_index * SECTORS_PER_PAGE + i))
                      match vm_swap_in { st1 with kernelPool := restPool } spte.swap_index with
                      | .error e => .error e
                      | .ok st2 =>
                          let st3 := file_write_at st2 file slotData PGSIZE offset
                          .ok { st3 with kernelPool := tmp :: st3.kernelPool }
                else vm_swap_free st1 spte.swap_index
            | .FROM_FILESYS => .ok st1
            | .ALL_ZEROS => .error "Invalid status."
          match afterCases with
          | .error e => .error e
          | .ok stF =>
              .ok (true, setSupt stF suptKey
                ((suptOf stF suptKey).eraseP (fun e => e.upage = page)))

/-- vm_pin_page from src/vm/page.c: a missing entry silently returns;
an entry that is not ON_FRAME trips the ASSERT; otherwise the frame is
pinned. -/
def vm_pin_page (st : VMState) (suptKey page : Nat) : Except Panic VMState :=
  match vm_supt_find st suptKey page with
  | none => .ok st
  | some spte =>
      if spte.status = .ON_FRAME then vm_frame_pin st (spte.kpage.getD 0)
      else .error "ASSERT failed: spte status == ON_FRAME"

/-- vm_unpin_page from src/vm/page.c: a missing entry is fatal; an
entry that is not ON_FRAME needs nothing; otherwise the frame is
unpinned. -/
def vm_unpin_page (st : VMState) (suptKey page : Nat) : Except Panic VMState :=
  match vm_supt_find st suptKey page with
  | none => .error "Request page does not exist."
  | some spte =>
      if spte.status = .ON_FRAME then vm_frame_unpin st (spte.kpage.getD 0)
      else .ok st

/-! ## sys_mmap, src/userprog/syscall.c -/

/-- find_file_desc from src/userprog/syscall.c: descriptors below 3 are
never in the table; otherwise look the id up in the fd list of the
current thread. -/
def find_file_desc (st : VMState) (fd : Int) : Option Nat :=
  if fd < 3 then none else lookupA st.fdTable fd.toNat

/-- The install loop of sys_mmap over the page offsets of the mapped
range, installing a FROM_FILESYS entry per page with the read/zero
split of the source. -/
def mmapInstallLoop (suptKey upage f file_size : Nat) :
    List Nat → VMState → Except Panic VMState
  | [], st => .ok st
  | off :: rest, st =>
      let read_bytes := if off + PGSIZE < file_size then PGSIZE else file_size - off
      let zero_bytes := PGSIZE - read_bytes
      match vm_supt_install_filesys st suptKey (upage + off) f off read_bytes zero_bytes
          true with
      | .error e => .error e
      | .ok st2 => mmapInstallLoop suptKey upage f file_size rest st2

/-- sys_mmap from src/userprog/syscall.c.  Rejects a NULL or unaligned
upage, fd at most 1, a descriptor that does not reopen, an empty file,
and any overlap with existing SPT entries; otherwise installs one
FROM_FILESYS entry per page, writable, and records a descriptor with
id one past the last (or 1).  The offsets list enumerates
offset = 0, PGSIZE, ... below file_size, as the for loops do. -/
def sys_mmap (st : VMState) (fd : Int) (upage : Nat) : Except Panic (Int × VMState) :=
  if upage = 0 ∨ upage % PGSIZE ≠ 0 then .ok (-1, st)
  else if fd ≤ 1 then .ok (-1, st)
  else
    let fOpt :=
      match find_file_desc st fd with
      | some fileId => file_reopen st fileId
      | none => none
    match fOpt with
    | none => .ok (-1, st)
    | some f =>
        let file_size := file_length st f
        if file_size = 0 then .ok (-1, st)
        else
          let offs := (List.range ((file_size + PGSIZE - 1) / PGSIZE)).map (· * PGSIZE)
          if offs.any (fun off => vm_supt_has_entry st st.currentTid (upage + off)) then
            .ok (-1, st)
          else
            match mmapInstallLoop st.currentTid upage f file_size offs st with
            | .error e => .error e
            | .ok st2 =>
                let mid : Int :=
                  match st2.mmapList.getLast? with
                  | some d => d.id + 1
                  | none => 1
                .ok (mid, { st2 with
                  mmapList := st2.mmapList ++ [⟨mid, f, upage, file_size⟩] })

/-! ## Result projections and basic lemmas -/

/-- True when a kernel operation completed without panicking. -/
def isOk {α : Type} (r : Except Panic α) : Bool :=
  match r with
  | .ok _ => true
  | .error _ => false

/-- The value component of a non-panicking run. -/
def resOf {α : Type} (r : Except Panic (α × VMState)) : Option α :=
  match r with
  | .ok (a, _) => some a
  | .error _ => none

/-- The state component of a non-panicking run. -/
def stOf {α : Type} (r : Except Panic (α × VMState)) : Option VMState :=
  match r with
  | .ok (_, s) => some s
  | .error _ => none

lemma lookupA_setA_self {α : Type} (l : List (Nat × α)) (k : Nat) (v : α) :
    lookupA (setA l k v) k = some v := by
  induction l with
  | nil => simp [setA, lookupA]
  | cons h t ih =>
      obtain ⟨k2, v2⟩ := h
      by_cases hk : k2 = k
      · simp [setA, hk, lookupA]
      · simp [setA, hk, lookupA, ih]

lemma lookupA_setA_ne {α : Type} (l : List (Nat × α)) (k k2 : Nat) (v : α)
    (h : k2 ≠ k) : lookupA (setA l k v) k2 = lookupA l k2 := by
  induction l with
  | nil =>
      simp only [setA, lookupA]
      rw [if_neg (fun hh => h hh.symm)]
  | cons hd t ih =>
      obtain ⟨k3, v3⟩ := hd
      by_cases hk : k3 = k
      · subst hk
        simp only [setA, if_pos rfl, lookupA]
        rw [if_neg (fun hh => h hh.symm), if_neg (fun hh => h hh.symm)]
      · simp only [setA, if_neg hk, lookupA]
        by_cases h2 : k3 = k2
        · rw [if_pos h2, if_pos h2]
        · rw [if_neg h2, if_neg h2, ih]

instance exceptDecEq {ε α : Type} [DecidableEq ε] [DecidableEq α] :
    DecidableEq (Except ε α)
  | .ok x, .ok y =>
      if h : x = y then isTrue (congrArg Except.ok h)
      else isFalse (fun hh => h (Except.ok.inj hh))
  | .error x, .error y =>
      if h : x = y then isTrue (congrArg Except.error h)
      else isFalse (fun hh => h (Except.error.inj hh))
  | .ok _, .error _ => isFalse (fun hh => Except.noConfusion hh)
  | .error _, .ok _ => isFalse (fun hh => Except.noConfusion hh)

/-! ## Claim C1: which accessed bit does eviction consult -/

/-- A state with a single frame owned by thread 2 while thread 1 runs
the eviction scan: the owner pagedir has the accessed bit for the upage
set, the pagedir of the evicting thread does not. -/
def c1State : VMState := {
  frames := [{ kpage := 10, upage := 20, tid := 2, is_pinned := false }],
  clockPtr := none,
  sentinel := { kpage := 999, upage := 888, tid := 77, is_pinned := true },
  pagedirs := [(1, ⟨[], [], []⟩), (2, ⟨[(20, true)], [], [(20, (10, true))]⟩)],
  supts := [], currentTid := 1,
  swapAvail := [], blockSize := 0, sectors := [], ram := [],
  userPool := [], kernelPool := [], mallocOk := true, setPageOk := true,
  fileLens := [], filePos := [], reopenMap := [], fdTable := [],
  mmapList := [], writeLog := [] }

/-- Claim C1: the claim states that the accessed bit consulted (and
cleared when set) during clock eviction is the one in the pagedir of
the entry owner.  The source passes the pagedir of the evicting thread
into frame_to_be_evicted, so on c1State, where the owner accessed bit
for the upage is set, the scan picks the frame as victim at the very
first inspection and leaves the owner bit set, while the owner-bit scan
the spec describes clears the bit, skips, and only selects the frame on
the second lap with the owner bit now clear. -/
theorem C1_eviction_consults_evicting_thread_pagedir :
    (frame_to_be_evicted c1State 1).1 = 1 ∧
    (frame_to_be_evicted c1State 1).2.map Prod.fst =
      .ok { kpage := 10, upage := 20, tid := 2, is_pinned := false } ∧
    ((frame_to_be_evicted c1State 1).2.toOption.map
      (fun p => pagedir_is_accessed (pdOf p.2 2) 20)) = some true ∧
    (frame_to_be_evicted_owner c1State).1 = 3 ∧
    ((frame_to_be_evicted_owner c1State).2.toOption.map
      (fun p => pagedir_is_accessed (pdOf p.2 2) 20)) = some false := by
  refine ⟨by decide, by decide, by decide, by decide, by decide⟩

/-! ## Claim C4: bound of the clock scan -/

/-- A state with a single pinned frame: every inspection is skipped, so
the scan runs its full loop and panics. -/
def c4State : VMState := {
  frames := [{ kpage := 10, upage := 20, tid := 1, is_pinned := true }],
  clockPtr := none,
  sentinel := { kpage := 999, upage := 888, tid := 77, is_pinned := true },
  pagedirs := [], supts := [], currentTid := 1,
  swapAvail := [], blockSize := 0, sectors := [], ram := [],
  userPool := [], kernelPool := [], mallocOk := true, setPageOk := true,
  fileLens := [], filePos := [], reopenMap := [], fdTable := [],
  mmapList := [], writeLog := [] }

/-- Claim C4, counterexample: on a frame table with N = 1 entry, which
is pinned, the scan performs 3 inspections before panicking, exceeding
the 2·N = 2 inspections the claim allows. -/
theorem C4_counterexample_scan_exceeds_two_N :
    (frame_to_be_evicted c4State 1).1 = 3 ∧
    2 * c4State.frames.length = 2 ∧
    (frame_to_be_evicted c4State 1).2 = .error "Cannot evict any frame." := by
  refine ⟨by decide, by decide, by decide⟩

/-- The next ring position of the clock hand. -/
def clockIdx (st : VMState) : Nat :=
  match st.clockPtr with
  | none => 0
  | some i => if i = st.frames.length then 0 else i + 1

lemma evictLoop_succ (pdKey fuel : Nat) (st : VMState) (count : Nat)
    (hne : st.frames ≠ []) :
    evictLoop pdKey (fuel + 1) st count =
      (if (st.frames.getD (clockIdx st) st.sentinel).is_pinned then
        evictLoop pdKey fuel { st with clockPtr := some (clockIdx st) } (count + 1)
      else if pagedir_is_accessed (pdOf { st with clockPtr := some (clockIdx st) } pdKey)
          (st.frames.getD (clockIdx st) st.sentinel).upage then
        evictLoop pdKey fuel
          (setPd { st with clockPtr := some (clockIdx st) } pdKey
            (pagedir_set_accessed
              (pdOf { st with clockPtr := some (clockIdx st) } pdKey)
              (st.frames.getD (clockIdx st) st.sentinel).upage false))
          (count + 1)
      else (count + 1, .ok (st.frames.getD (clockIdx st) st.sentinel,
        { st with clockPtr := some (clockIdx st) }))) := by
  have hE : st.frames.isEmpty = false := by
    cases hF : st.frames with
    | nil => exact absurd hF hne
    | cons a l => rfl
  simp only [evictLoop, clock_frame_next, hE, Bool.false_eq_true, if_false, clockIdx]

lemma evictLoop_count (pdKey : Nat) : ∀ (fuel : Nat) (st : VMState) (count : Nat),
    st.frames ≠ [] →
    (evictLoop pdKey fuel st count).1 ≤ count + fuel ∧
    ((evictLoop pdKey fuel st count).2 = .error "Cannot evict any frame." →
      (evictLoop pdKey fuel st count).1 = count + fuel) := by
  intro fuel
  induction fuel with
  | zero => intro st count _; simp [evictLoop]
  | succ n ih =>
      intro st count hne
      rw [evictLoop_succ pdKey n st count hne]
      split_ifs with hp ha
      · have h2 : ({ st with clockPtr := some (clockIdx st) } : VMState).frames ≠ [] := hne
        have := ih { st with clockPtr := some (clockIdx st) } (count + 1) h2
        exact ⟨by omega, fun h => by rw [this.2 h]; omega⟩
      · have h2 : (setPd { st with clockPtr := some (clockIdx st) } pdKey
            (pagedir_set_accessed
              (pdOf { st with clockPtr := some (clockIdx st) } pdKey)
              (st.frames.getD (clockIdx st) st.sentinel).upage false)).frames ≠ [] := hne
        have := ih _ (count + 1) h2
        exact ⟨by omega, fun h => by rw [this.2 h]; omega⟩
      · exact ⟨by show count + 1 ≤ count + (n + 1); omega, fun h => by simp at h⟩

/-- Claim C4, amended: victim selection performs at most 2·N + 1 ring
inspections, where N is the frame-table entry count at the start of the
scan; when that many inspections pass without finding an unpinned entry
whose accessed bit is clear, the scan panics having performed exactly
2·N + 1 inspections; the selection procedure is a total function and
always terminates. -/
theorem C4_scan_bounded_by_two_N_plus_one (st : VMState) (pdKey : Nat) :
    (frame_to_be_evicted st pdKey).1 ≤ 2 * st.frames.length + 1 ∧
    (st.frames ≠ [] →
      (frame_to_be_evicted st pdKey).2 = .error "Cannot evict any frame." →
      (frame_to_be_evicted st pdKey).1 = 2 * st.frames.length + 1) := by
  unfold frame_to_be_evicted
  by_cases h0 : st.frames.length = 0
  · simp [h0]
  · have hne : st.frames ≠ [] := by
      intro hh
      rw [hh] at h0
      simp at h0
    have hh := evictLoop_count pdKey (2 * st.frames.length + 1) st 0 hne
    simp only [h0, if_false]
    exact ⟨by simpa using hh.1, fun _ h2 => by simpa using hh.2 h2⟩

/-- Witness for C4: on c4State the panic case is reached and the
amended bound is met with equality, 3 = 2·1 + 1. -/
theorem C4_scan_bound_witness :
    (frame_to_be_evicted c4State 1).1 ≤ 2 * c4State.frames.length + 1 ∧
    (frame_to_be_evicted c4State 1).1 = 2 * c4State.frames.length + 1 :=
  ⟨(C4_scan_bounded_by_two_N_plus_one c4State 1).1,
   (C4_scan_bounded_by_two_N_plus_one c4State 1).2 (by decide) (by decide)⟩

/-! ## Claim C7: load of an already resident page is a no-op -/

/-- Claim C7: when the SPT entry for upage has status ON_FRAME,
vm_load_page returns true with the state untouched: no frame is
allocated and neither the frame table nor the SPT entry changes. -/
theorem C7_load_page_resident_noop (st : VMState) (suptKey pdKey upage : Nat)
    (spte : SPTE) (hfind : vm_supt_find st suptKey upage = some spte)
    (hstat : spte.status = .ON_FRAME) :
    vm_load_page st suptKey pdKey upage = .ok (true, st) := by
  unfold vm_load_page
  rw [hfind]
  simp [hstat]

/-- The resident SPT entry of the C7 witness state. -/
def c7Spte : SPTE :=
  { upage := 4096, kpage := some 10, status := .ON_FRAME, is_dirty := false,
    swap_index := 0, file := 0, file_offset := 0, read_bytes := 0,
    zero_bytes := 0, writable := true }

/-- A resident one-entry SPT used to witness C7. -/
def c7State : VMState := {
  frames := [{ kpage := 10, upage := 4096, tid := 1, is_pinned := false }],
  clockPtr := none,
  sentinel := { kpage := 999, upage := 888, tid := 77, is_pinned := true },
  pagedirs := [(1, ⟨[], [], [(4096, (10, true))]⟩)],
  supts := [(1, [c7Spte])],
  currentTid := 1,
  swapAvail := [], blockSize := 0, sectors := [], ram := [],
  userPool := [], kernelPool := [], mallocOk := true, setPageOk := true,
  fileLens := [], filePos := [], reopenMap := [], fdTable := [],
  mmapList := [], writeLog := [] }

/-- Witness for C7 at a concrete resident page. -/
theorem C7_load_page_resident_noop_witness :
    vm_load_page c7State 1 1 4096 = .ok (true, c7State) :=
  C7_load_page_resident_noop c7State 1 1 4096 c7Spte (by decide) (by decide)

/-! ## Claim C10: pin and unpin asymmetry at the public interface -/

/-- Claim C10: vm_pin_page on a upage with no SPT entry silently
returns with the state unchanged, vm_unpin_page on a upage with no SPT
entry panics, and vm_unpin_page on an entry whose status is not
ON_FRAME is a no-op. -/
theorem C10_pin_unpin_asymmetry :
    (∀ (st : VMState) (a p : Nat), vm_supt_find st a p = none →
      vm_pin_page st a p = .ok st) ∧
    (∀ (st : VMState) (a p : Nat), vm_supt_find st a p = none →
      vm_unpin_page st a p = .error "Request page does not exist.") ∧
    (∀ (st : VMState) (a p : Nat) (spte : SPTE),
      vm_supt_find st a p = some spte → spte.status ≠ .ON_FRAME →
      vm_unpin_page st a p = .ok st) := by
  refine ⟨?_, ?_, ?_⟩
  · intro st a p h
    unfold vm_pin_page
    rw [h]
  · intro st a p h
    unfold vm_unpin_page
    rw [h]
  · intro st a p spte h hs
    unfold vm_unpin_page
    rw [h]
    simp [hs]

/-- A swapped-out SPT entry for the C10 witness. -/
def c10Spte : SPTE :=
  { upage := 123, kpage := none, status := .ON_SWAP, is_dirty := false,
    swap_index := 0, file := 0, file_offset := 0, read_bytes := 0,
    zero_bytes := 0, writable := false }

/-- The C10 witness state with one swapped-out entry. -/
def c10State : VMState := { c4State with supts := [(1, [c10Spte])] }

/-- Witness for C10 on concrete states: a missing page pins silently
and fails to unpin; a swapped-out page unpins as a no-op. -/
theorem C10_pin_unpin_asymmetry_witness :
    vm_pin_page c4State 1 123 = .ok c4State ∧
    vm_unpin_page c4State 1 123 = .error "Request page does not exist." ∧
    vm_unpin_page c10State 1 123 = .ok c10State :=
  ⟨C10_pin_unpin_asymmetry.1 c4State 1 123 (by decide),
   C10_pin_unpin_asymmetry.2.1 c4State 1 123 (by decide),
   C10_pin_unpin_asymmetry.2.2 c10State 1 123 c10Spte (by decide) (by decide)⟩

/-! ## Claim C2: vm_swap_out -/

lemma bitmap_scan_spec (b : List Bool) (hlen : b.length < BITMAP_ERROR) :
    (bitmap_scan b = BITMAP_ERROR ∧ ∀ v ∈ b, v = false) ∨
    (bitmap_scan b < b.length ∧ b.get? (bitmap_scan b) = some true ∧
      ∀ j < bitmap_scan b, b.get? j = some false) := by
  induction b with
  | nil => left; exact ⟨rfl, by simp⟩
  | cons v rest ih =>
      by_cases hv : v = true
      · right
        refine ⟨by simp [bitmap_scan, hv], by simp [bitmap_scan, hv], ?_⟩
        intro j hj
        simp [bitmap_scan, hv] at hj
      · have hlen2 : rest.length < BITMAP_ERROR := by
          simp only [List.length_cons] at hlen
          omega
        have hvf : v = false := by
          cases v
          · rfl
          · exact absurd rfl hv
        rcases ih hlen2 with ⟨h1, h2⟩ | ⟨h1, h2, h3⟩
        · left
          constructor
          · simp [bitmap_scan, hvf, h1]
          · intro x hx
            rcases List.mem_cons.mp hx with hx | hx
            · rw [hx, hvf]
            · exact h2 x hx
        · right
          have hne : bitmap_scan rest ≠ BITMAP_ERROR := by
            intro hh
            rw [hh] at h1
            omega
          have hsc : bitmap_scan (v :: rest) = bitmap_scan rest + 1 := by
            simp [bitmap_scan, hvf, hne]
          refine ⟨?_, ?_, ?_⟩
          · rw [hsc]; simp; omega
          · rw [hsc]; simpa using h2
          · intro j hj
            rw [hsc] at hj
            cases j with
            | zero => simp [hvf]
            | succ j2 =>
                simp only [List.get?_cons_succ]
                exact h3 j2 (by omega)

lemma swapWriteLoop_ok (page : Nat → Nat) (idx : Nat) :
    ∀ (fuel : Nat) (st : VMState), fuel ≤ SECTORS_PER_PAGE →
    idx * SECTORS_PER_PAGE + SECTORS_PER_PAGE ≤ st.blockSize →
    st.blockSize < U32 →
    ∃ st2, swapWriteLoop page idx fuel st = .ok st2 ∧
      st2.swapAvail = st.swapAvail ∧ st2.blockSize = st.blockSize ∧
      ∀ s, sectorAt st2 s =
        if SECTORS_PER_PAGE - fuel ≤ s - idx * SECTORS_PER_PAGE ∧
           idx * SECTORS_PER_PAGE ≤ s ∧ s < idx * SECTORS_PER_PAGE + SECTORS_PER_PAGE
        then page (s - idx * SECTORS_PER_PAGE) else sectorAt st s := by
  have hSPP : SECTORS_PER_PAGE = 8 := rfl
  intro fuel
  induction fuel with
  | zero =>
      intro st _ _ _
      refine ⟨st, rfl, rfl, rfl, ?_⟩
      intro s
      rw [if_neg]
      intro ⟨ha, hb, hc⟩
      omega
  | succ n ihn =>
      intro st hfuel hfit hu
      have ho : SECTORS_PER_PAGE - (n + 1) < SECTORS_PER_PAGE := by omega
      have hsec : idx * SECTORS_PER_PAGE + (SECTORS_PER_PAGE - (n + 1)) < st.blockSize := by
        omega
      have hmod : (idx * SECTORS_PER_PAGE + (SECTORS_PER_PAGE - (n + 1))) % U32 =
          idx * SECTORS_PER_PAGE + (SECTORS_PER_PAGE - (n + 1)) :=
        Nat.mod_eq_of_lt (by omega)
      set key := idx * SECTORS_PER_PAGE + (SECTORS_PER_PAGE - (n + 1)) with hkey
      set stW : VMState :=
        { st with sectors := setA st.sectors key (page (SECTORS_PER_PAGE - (n + 1))) }
        with hstW
      have hbw : block_write st (key % U32) (page (SECTORS_PER_PAGE - (n + 1))) = .ok stW := by
        rw [hmod]
        unfold block_write
        rw [if_pos hsec]
      have hstep : swapWriteLoop page idx (n + 1) st = swapWriteLoop page idx n stW := by
        have hdef : swapWriteLoop page idx (n + 1) st =
            match block_write st (key % U32) (page (SECTORS_PER_PAGE - (n + 1))) with
            | .error e => .error e
            | .ok st2 => swapWriteLoop page idx n st2 := rfl
        rw [hdef, hbw]
      obtain ⟨st2, hrun, hav, hbs, hsect⟩ := ihn stW (by omega) hfit hu
      refine ⟨st2, by rw [hstep]; exact hrun, hav, hbs, ?_⟩
      intro s
      rw [hsect s]
      by_cases hin : SECTORS_PER_PAGE - n ≤ s - idx * SECTORS_PER_PAGE ∧
          idx * SECTORS_PER_PAGE ≤ s ∧ s < idx * SECTORS_PER_PAGE + SECTORS_PER_PAGE
      · rw [if_pos hin, if_pos (by omega)]
      · rw [if_neg hin]
        by_cases hk : s = key
        · have hcond : SECTORS_PER_PAGE - (n + 1) ≤ s - idx * SECTORS_PER_PAGE ∧
              idx * SECTORS_PER_PAGE ≤ s ∧
              s < idx * SECTORS_PER_PAGE + SECTORS_PER_PAGE := by
            subst hk
            omega
          rw [if_pos hcond]
          have hdiff : s - idx * SECTORS_PER_PAGE = SECTORS_PER_PAGE - (n + 1) := by
            omega
          subst hk
          show (lookupA stW.sectors key).getD 0 = _
          rw [show stW.sectors = setA st.sectors key (page (SECTORS_PER_PAGE - (n + 1)))
            from rfl]
          rw [lookupA_setA_self]
          rw [hdiff]
          rfl
        · have hcond : ¬ (SECTORS_PER_PAGE - (n + 1) ≤ s - idx * SECTORS_PER_PAGE ∧
              idx * SECTORS_PER_PAGE ≤ s ∧
              s < idx * SECTORS_PER_PAGE + SECTORS_PER_PAGE) := by
            intro ⟨ha, hb, hc⟩
            apply hin
            refine ⟨?_, hb, hc⟩
            by_contra hlt
            apply hk
            omega
          rw [if_neg hcond]
          show (lookupA stW.sectors s).getD 0 = (lookupA st.sectors s).getD 0
          rw [show stW.sectors = setA st.sectors key (page (SECTORS_PER_PAGE - (n + 1)))
            from rfl]
          rw [lookupA_setA_ne st.sectors key s _ hk]

/-- Claim C2: when a free slot exists, vm_swap_out returns the
lowest-indexed free slot, writes SECTORS_PER_PAGE sectors of the page
to the sectors of that slot and marks the slot occupied; when every
slot is occupied it panics before returning.  The hypotheses record
that the bitmap fits the device (swap_size slots of SECTORS_PER_PAGE
sectors each, as vm_swap_init builds it), the device is addressed by
32-bit sectors, and the slot count is below BITMAP_ERROR. -/
theorem C2_vm_swap_out_first_free_or_panic (st : VMState) (page : Nat → Nat)
    (hlen : st.swapAvail.length < BITMAP_ERROR)
    (hfit : st.swapAvail.length * SECTORS_PER_PAGE ≤ st.blockSize)
    (hblk : st.blockSize ≤ U32 - SECTORS_PER_PAGE) :
    ((∃ v ∈ st.swapAvail, v = true) →
      bitmap_scan st.swapAvail < st.swapAvail.length ∧
      st.swapAvail.get? (bitmap_scan st.swapAvail) = some true ∧
      (∀ j < bitmap_scan st.swapAvail, st.swapAvail.get? j = some false) ∧
      resOf (vm_swap_out st page) = some (bitmap_scan st.swapAvail) ∧
      (stOf (vm_swap_out st page)).map (fun s2 => s2.swapAvail) =
        some (st.swapAvail.set (bitmap_scan st.swapAvail) false) ∧
      (∀ i < SECTORS_PER_PAGE, (stOf (vm_swap_out st page)).map
        (fun s2 => sectorAt s2 (bitmap_scan st.swapAvail * SECTORS_PER_PAGE + i)) =
        some (page i))) ∧
    ((∀ v ∈ st.swapAvail, v = false) → isOk (vm_swap_out st page) = false) := by
  have hU : U32 = 4294967296 := rfl
  have hSPP : SECTORS_PER_PAGE = 8 := rfl
  constructor
  · intro hfree
    rcases bitmap_scan_spec st.swapAvail hlen with ⟨h1, h2⟩ | ⟨h1, h2, h3⟩
    · obtain ⟨v, hv, hvt⟩ := hfree
      rw [hvt] at hv
      have := h2 true hv
      simp at this
    · set idx := bitmap_scan st.swapAvail with hidx
      have hfit2 : idx * SECTORS_PER_PAGE + SECTORS_PER_PAGE ≤ st.blockSize := by
        have : (idx + 1) * SECTORS_PER_PAGE ≤ st.swapAvail.length * SECTORS_PER_PAGE :=
          Nat.mul_le_mul_right _ (by omega)
        calc idx * SECTORS_PER_PAGE + SECTORS_PER_PAGE
            = (idx + 1) * SECTORS_PER_PAGE := by ring
          _ ≤ st.swapAvail.length * SECTORS_PER_PAGE := this
          _ ≤ st.blockSize := hfit
      have hu32 : st.blockSize < U32 := by
        have hp : 0 < SECTORS_PER_PAGE := by decide
        have hle : SECTORS_PER_PAGE ≤ U32 := by decide
        omega
      obtain ⟨st2, hrun, hav, hbs, hsect⟩ :=
        swapWriteLoop_ok page idx SECTORS_PER_PAGE st (le_refl _) hfit2 hu32
      have hset : bitmap_set st2.swapAvail idx false =
          .ok (st.swapAvail.set idx false) := by
        unfold bitmap_set
        rw [hav, if_pos h1]
      have hout : vm_swap_out st page = .ok (idx, { st2 with
          swapAvail := st.swapAvail.set idx false }) := by
        simp only [vm_swap_out, ← hidx]
        simp only [hrun]
        simp only [hset]
      refine ⟨h1, h2, h3, ?_, ?_, ?_⟩
      · rw [hout]; rfl
      · rw [hout]; rfl
      · intro i hi
        rw [hout]
        show some (sectorAt { st2 with swapAvail := st.swapAvail.set idx false }
          (idx * SECTORS_PER_PAGE + i)) = some (page i)
        have hsq : sectorAt { st2 with swapAvail := st.swapAvail.set idx false }
            (idx * SECTORS_PER_PAGE + i) = sectorAt st2 (idx * SECTORS_PER_PAGE + i) := rfl
        rw [hsq, hsect]
        have hcnd : SECTORS_PER_PAGE - SECTORS_PER_PAGE ≤
            (idx * SECTORS_PER_PAGE + i) - idx * SECTORS_PER_PAGE ∧
            idx * SECTORS_PER_PAGE ≤ idx * SECTORS_PER_PAGE + i ∧
            idx * SECTORS_PER_PAGE + i < idx * SECTORS_PER_PAGE + SECTORS_PER_PAGE :=
          ⟨by omega, by omega, by omega⟩
        rw [if_pos hcnd, Nat.add_sub_cancel_left]
  · intro hall
    rcases bitmap_scan_spec st.swapAvail hlen with ⟨h1, _⟩ | ⟨_, h2, _⟩
    · simp only [vm_swap_out]
      rw [h1]
      have hstep : swapWriteLoop page BITMAP_ERROR SECTORS_PER_PAGE st =
          match block_write st
            ((BITMAP_ERROR * SECTORS_PER_PAGE + (SECTORS_PER_PAGE - 8)) % U32)
            (page (SECTORS_PER_PAGE - 8)) with
          | .error e => .error e
          | .ok stX => swapWriteLoop page BITMAP_ERROR 7 stX := by
        rw [hSPP]
        rfl
      have hval : (BITMAP_ERROR * SECTORS_PER_PAGE + (SECTORS_PER_PAGE - 8)) % U32 =
          4294967288 := by decide
      have hbw : block_write st 4294967288 (page (SECTORS_PER_PAGE - 8)) =
          .error "block device: access past end of device" := by
        unfold block_write
        rw [if_neg]
        rw [hU, hSPP] at hblk
        omega
      rw [hstep, hval, hbw]
      rfl
    · have : (true : Bool) = false := by
        apply hall
        exact List.get?_mem h2
      simp at this

/-- The state the C2 witness runs on: two slots, the first occupied. -/
def c2State : VMState := { c4State with
  frames := [], blockSize := 16, swapAvail := [false, true] }

/-- The state the C2 panic witness runs on: both slots occupied. -/
def c2FullState : VMState := { c4State with
  frames := [], blockSize := 16, swapAvail := [false, false] }

/-- The page image written by the C2 witness. -/
def c2Page : Nat → Nat := fun i => 100 + i

/-- Witness for C2: on c2State the scan picks slot 1 and the out path
completes; on c2FullState the call panics. -/
theorem C2_vm_swap_out_witness :
    resOf (vm_swap_out c2State c2Page) = some 1 ∧
    isOk (vm_swap_out c2FullState c2Page) = false := by
  have h1 := C2_vm_swap_out_first_free_or_panic c2State c2Page
    (by decide) (by decide) (by decide)
  have h2 := C2_vm_swap_out_first_free_or_panic c2FullState c2Page
    (by decide) (by decide) (by decide)
  refine ⟨?_, h2.2 (by decide)⟩
  have hres := (h1.1 ⟨true, by decide, rfl⟩).2.2.2.1
  rw [show bitmap_scan c2State.swapAvail = 1 from by decide] at hres
  exact hres

/-! ## State-shape lemmas: which fields each operation can touch -/

lemma block_write_state (st : VMState) (sec v : Nat) (st2 : VMState)
    (h : block_write st sec v = .ok st2) :
    st2 = { st with sectors := st2.sectors } := by
  unfold block_write at h
  split at h
  · injection h with h2
    rw [← h2]
  · exact absurd h (by simp)

lemma swapWriteLoop_state (page : Nat → Nat) (idx : Nat) :
    ∀ (fuel : Nat) (st st2 : VMState), swapWriteLoop page idx fuel st = .ok st2 →
      st2 = { st with sectors := st2.sectors } := by
  intro fuel
  induction fuel with
  | zero =>
      intro st st2 h
      simp only [swapWriteLoop] at h
      injection h with h2
      rw [← h2]
  | succ n ih =>
      intro st st2 h
      simp only [swapWriteLoop] at h
      split at h
      · exact absurd h (by simp)
      · next stW heq =>
          have h1 := block_write_state _ _ _ _ heq
          have h2 := ih _ _ h
          calc st2 = { stW with sectors := st2.sectors } := h2
            _ = { st with sectors := st2.sectors } := by rw [h1]

lemma vm_swap_out_state (st : VMState) (page : Nat → Nat) (i : Nat) (st2 : VMState)
    (h : vm_swap_out st page = .ok (i, st2)) :
    st2 = { st with sectors := st2.sectors, swapAvail := st2.swapAvail } := by
  simp only [vm_swap_out] at h
  split at h
  · exact absurd h (by simp)
  · next stW heq =>
      split at h
      · exact absurd h (by simp)
      · next b heq2 =>
          injection h with hp
          cases hp
          have h1 := swapWriteLoop_state _ _ _ _ _ heq
          calc ({ stW with swapAvail := b } : VMState)
              = { stW with sectors := stW.sectors, swapAvail := b } := rfl
            _ = { st with sectors := stW.sectors, swapAvail := b } := by rw [h1]

lemma vm_swap_in_state (st : VMState) (i : Nat) (st2 : VMState)
    (h : vm_swap_in st i = .ok st2) :
    st2 = { st with swapAvail := st2.swapAvail } := by
  unfold vm_swap_in at h
  split at h
  · split at h
    · exact absurd h (by simp)
    · next free hfree =>
        split at h
        · exact absurd h (by simp)
        · split at h
          · exact absurd h (by simp)
          · injection h with h2
            rw [← h2]
  · exact absurd h (by simp)

lemma vm_swap_free_state (st : VMState) (i : Nat) (st2 : VMState)
    (h : vm_swap_free st i = .ok st2) :
    st2 = { st with swapAvail := st2.swapAvail } := by
  unfold vm_swap_free at h
  split at h
  · split at h
    · exact absurd h (by simp)
    · next free hfree =>
        split at h
        · exact absurd h (by simp)
        · split at h
          · exact absurd h (by simp)
          · injection h with h2
            rw [← h2]
  · exact absurd h (by simp)

lemma vm_supt_set_swap_state (st : VMState) (a p i : Nat) :
    (vm_supt_set_swap st a p i).2 =
      { st with supts := (vm_supt_set_swap st a p i).2.supts } := by
  unfold vm_supt_set_swap
  split
  · rfl
  · rfl

lemma vm_supt_set_dirty_state (st : VMState) (a p : Nat) (v : Bool) (st2 : VMState)
    (h : vm_supt_set_dirty st a p v = .ok st2) :
    st2 = { st with supts := st2.supts } := by
  unfold vm_supt_set_dirty at h
  split at h
  · exact absurd h (by simp)
  · injection h with h2
    rw [← h2]
    rfl

lemma vm_frame_do_free_state (st : VMState) (k : Nat) (fp : Bool) (st2 : VMState)
    (h : vm_frame_do_free st k fp = .ok st2) :
    st2 = { st with frames := st2.frames, userPool := st2.userPool } := by
  unfold vm_frame_do_free at h
  split at h
  · exact absurd h (by simp)
  · split at h
    · injection h with h2
      rw [← h2]
    · injection h with h2
      rw [← h2]

lemma vm_frame_set_pinned_state (st : VMState) (k : Nat) (v : Bool) (st2 : VMState)
    (h : vm_frame_set_pinned st k v = .ok st2) :
    st2 = { st with frames := st2.frames } := by
  unfold vm_frame_set_pinned at h
  split at h
  · exact absurd h (by simp)
  · injection h with h2
    rw [← h2]

lemma evictLoop_state (pdKey : Nat) : ∀ (fuel : Nat) (st : VMState) (count : Nat)
    (v : FTE) (st2 : VMState),
    (evictLoop pdKey fuel st count).2 = .ok (v, st2) →
    st2 = { st with clockPtr := st2.clockPtr, pagedirs := st2.pagedirs } := by
  intro fuel
  induction fuel with
  | zero =>
      intro st count v st2 h
      simp [evictLoop] at h
  | succ n ih =>
      intro st count v st2 h
      by_cases hE : st.frames = []
      · have hE2 : st.frames.isEmpty = true := by rw [hE]; rfl
        simp [evictLoop, clock_frame_next, hE2] at h
      · rw [evictLoop_succ pdKey n st count hE] at h
        split_ifs at h with hp ha
        · have := ih _ _ _ _ h
          calc st2 = { ({ st with clockPtr := some (clockIdx st) } : VMState) with
              clockPtr := st2.clockPtr, pagedirs := st2.pagedirs } := this
            _ = { st with clockPtr := st2.clockPtr, pagedirs := st2.pagedirs } := rfl
        · have := ih _ _ _ _ h
          calc st2 = { (setPd { st with clockPtr := some (clockIdx st) } pdKey
              (pagedir_set_accessed
                (pdOf { st with clockPtr := some (clockIdx st) } pdKey)
                (st.frames.getD (clockIdx st) st.sentinel).upage false)) with
              clockPtr := st2.clockPtr, pagedirs := st2.pagedirs } := this
            _ = { st with clockPtr := st2.clockPtr, pagedirs := st2.pagedirs } := rfl
        · injection h with h2
          injection h2 with h3 h4
          rw [← h4]

lemma frame_to_be_evicted_state (st : VMState) (pdKey : Nat) (v : FTE) (st2 : VMState)
    (h : (frame_to_be_evicted st pdKey).2 = .ok (v, st2)) :
    st2 = { st with clockPtr := st2.clockPtr, pagedirs := st2.pagedirs } := by
  simp only [frame_to_be_evicted] at h
  split at h
  · simp at h
  · exact evictLoop_state pdKey _ _ _ _ _ h

/-! ## Claim C9: vm_frame_alloc success and failure shape -/

lemma vm_frame_alloc_finish_spec (st : VMState) (upage fp : Nat) (r : Option Nat)
    (st2 : VMState) (h : vm_frame_alloc_finish st upage fp = .ok (r, st2)) :
    (r = none → st.mallocOk = false) ∧
    (∀ k, r = some k → st.mallocOk = true ∧ k = fp ∧
      st2.frames.getLast? =
        some { kpage := k, upage := upage, tid := st.currentTid, is_pinned := true }) := by
  unfold vm_frame_alloc_finish at h
  split at h
  · next hm =>
      injection h with hp
      cases hp
      constructor
      · intro hn; simp at hn
      · intro k hk
        injection hk with hk
        subst hk
        exact ⟨hm, rfl, List.getLast?_concat _⟩
  · next hm =>
      injection h with hp
      cases hp
      constructor
      · intro _
        simpa using hm
      · intro k hk
        simp at hk

/-- Claim C9: whenever vm_frame_alloc completes without the failure
sentinel, the frame-table entry pushed at the back of the ring has the
current thread as owner, the argument as upage and pinned = true, and
the returned kpage is that entry's kpage; the sentinel (none, the NULL
of the source) is returned only when the bookkeeping malloc fails. -/
theorem C9_vm_frame_alloc_inserts_pinned_entry (st : VMState) (upage : Nat)
    (r : Option Nat) (st2 : VMState) (h : vm_frame_alloc st upage = .ok (r, st2)) :
    (r = none → st.mallocOk = false) ∧
    (∀ k, r = some k → st.mallocOk = true ∧
      st2.frames.getLast? =
        some { kpage := k, upage := upage, tid := st.currentTid, is_pinned := true }) := by
  simp only [vm_frame_alloc] at h
  split at h
  · next fp rest hpool =>
      have hs := vm_frame_alloc_finish_spec _ _ _ _ _ h
      exact ⟨hs.1, fun k hk => ⟨(hs.2 k hk).1, (hs.2 k hk).2.2⟩⟩
  · next hpool =>
      split at h
      · exact absurd h (by simp)
      · next victim stA heqA =>
          split at h
          · exact absurd h (by simp)
          · next idx stB heqB =>
              split at h
              · exact absurd h (by simp)
              · next stC heqC =>
                  split at h
                  · exact absurd h (by simp)
                  · next stD heqD =>
                      split at h
                      · exact absurd h (by simp)
                      · next fp rest2 hpool2 =>
                          have hA := frame_to_be_evicted_state _ _ _ _ heqA
                          have hB := vm_swap_out_state _ _ _ _ heqB
                          have hsw := vm_supt_set_swap_state stB victim.tid victim.upage idx
                          have hC := vm_supt_set_dirty_state _ _ _ _ _ heqC
                          have hD := vm_frame_do_free_state _ _ _ _ heqD
                          have hm : ({ stD with userPool := rest2 } : VMState).mallocOk =
                              st.mallocOk := by
                            rw [hD, hC, hsw, hB, hA]
                            rfl
                          have hct : ({ stD with userPool := rest2 } : VMState).currentTid =
                              st.currentTid := by
                            rw [hD, hC, hsw, hB, hA]
                            rfl
                          have hs := vm_frame_alloc_finish_spec _ _ _ _ _ h
                          constructor
                          · intro hn
                            have := hs.1 hn
                            rw [hm] at this
                            exact this
                          · intro k hk
                            have h2 := hs.2 k hk
                            rw [hm] at h2
                            rw [hct] at h2
                            exact ⟨h2.1, h2.2.2⟩

/-- A one-page user pool state for the C9 witness. -/
def c9State : VMState := { c4State with frames := [], userPool := [10] }

/-- The state vm_frame_alloc produces from c9State. -/
def c9StateAfter : VMState :=
  { c9State with
    userPool := [],
    frames := [{ kpage := 10, upage := 4096, tid := 1, is_pinned := true }] }

/-- Witness for C9: allocating from c9State returns kpage 10 and the
inserted entry is owned by the current thread and pinned. -/
theorem C9_vm_frame_alloc_witness :
    c9State.mallocOk = true ∧
    c9StateAfter.frames.getLast? =
      some { kpage := 10, upage := 4096, tid := c9State.currentTid, is_pinned := true } :=
  (C9_vm_frame_alloc_inserts_pinned_entry c9State 4096 (some 10) c9StateAfter
    (by decide)).2 10 rfl

/-! ## Claim C3: failure paths of the resolver reclaim the fresh frame -/

lemma vm_frame_alloc_pool (st : VMState) (u k : Nat) (rest : List Nat)
    (hpool : st.userPool = k :: rest) (hmalloc : st.mallocOk = true) :
    vm_frame_alloc st u = .ok (some k,
      { st with
        userPool := rest,
        frames := st.frames ++
          [{ kpage := k, upage := u, tid := st.currentTid, is_pinned := true }] }) := by
  simp only [vm_frame_alloc, hpool, vm_frame_alloc_finish]
  rw [if_pos hmalloc]

lemma vm_load_page_from_filesys_short (st : VMState) (spte : SPTE)
    (hshort : file_length st spte.file - spte.file_offset < spte.read_bytes) :
    ∃ st2, vm_load_page_from_filesys st spte = .ok (false, st2) ∧
      st2.frames = st.frames ∧ st2.userPool = st.userPool ∧
      st2.supts = st.supts ∧ st2.mallocOk = st.mallocOk := by
  simp only [vm_load_page_from_filesys, file_seek, file_read, file_length] at *
  rw [lookupA_setA_self]
  simp only [Option.getD_some]
  rw [if_pos (by omega)]
  exact ⟨_, rfl, rfl, rfl, rfl, rfl⟩

lemma vm_frame_free_concat (base : List FTE) (stX : VMState) (k : Nat) (F : FTE)
    (hXf : stX.frames = base ++ [F])
    (hbase : List.find? (fun e => e.kpage = k) base = none)
    (hF : F.kpage = k) :
    vm_frame_free stX k =
      .ok { stX with frames := base, userPool := k :: stX.userPool } := by
  have hfind : frameFind stX.frames k = some F := by
    unfold frameFind
    rw [hXf, List.find?_append, hbase]
    simp [List.find?, hF]
  have herase : stX.frames.eraseP (fun e => e.kpage = k) = base := by
    rw [hXf, List.eraseP_append_right]
    · rw [List.eraseP_cons_of_pos (by simp [hF])]
      simp
    · intro e he
      exact List.find?_eq_none.mp hbase e he
  unfold vm_frame_free vm_frame_do_free
  rw [hfind]
  simp only [if_pos]
  rw [herase]

/-- Claim C3: vm_load_page with no SPT entry for upage returns false
with the state untouched (in particular no frame is allocated); and
when the FROM_FILESYS read underflows read_bytes, or installing the
hardware mapping fails, the freshly allocated frame-table entry is
removed and the physical page is back in the user pool when false is
returned.  The materialisation conjuncts are stated on the non-evicting
allocation path (user pool non-empty, bookkeeping malloc succeeds,
fresh kpage). -/
theorem C3_load_page_failure_reclaims_frame :
    (∀ (st : VMState) (a b u : Nat), vm_supt_find st a u = none →
      vm_load_page st a b u = .ok (false, st)) ∧
    (∀ (st : VMState) (a b u : Nat) (spte : SPTE) (k : Nat) (rest : List Nat),
      vm_supt_find st a u = some spte →
      spte.status = .FROM_FILESYS →
      st.userPool = k :: rest →
      st.mallocOk = true →
      frameFind st.frames k = none →
      file_length st spte.file - spte.file_offset < spte.read_bytes →
      resOf (vm_load_page st a b u) = some false ∧
      (stOf (vm_load_page st a b u)).map (fun s => s.frames) = some st.frames ∧
      (stOf (vm_load_page st a b u)).map (fun s => s.userPool) = some (k :: rest)) ∧
    (∀ (st : VMState) (a b u : Nat) (spte : SPTE) (k : Nat) (rest : List Nat),
      vm_supt_find st a u = some spte →
      spte.status = .ALL_ZEROS →
      st.userPool = k :: rest →
      st.mallocOk = true →
      frameFind st.frames k = none →
      st.setPageOk = false →
      resOf (vm_load_page st a b u) = some false ∧
      (stOf (vm_load_page st a b u)).map (fun s => s.frames) = some st.frames ∧
      (stOf (vm_load_page st a b u)).map (fun s => s.userPool) = some (k :: rest)) := by
  refine ⟨?_, ?_, ?_⟩
  · intro st a b u h
    simp only [vm_load_page, h]
  · intro st a b u spte k rest hfind hstat hpool hmalloc hk hshort
    have hAlloc := vm_frame_alloc_pool st u k rest hpool hmalloc
    set F : FTE := { kpage := k, upage := u, tid := st.currentTid, is_pinned := true }
      with hF
    set st1 : VMState := { st with userPool := rest, frames := st.frames ++ [F] }
      with hst1
    have hRefetch : vm_supt_find st1 a u = some spte := hfind
    have hshort1 : file_length st1 spte.file - spte.file_offset < spte.read_bytes :=
      hshort
    obtain ⟨stX, hLoad, hXf, hXu, hXs, hXm⟩ :=
      vm_load_page_from_filesys_short st1 spte hshort1
    have hfree : vm_frame_free stX k =
        .ok { stX with frames := st.frames, userPool := k :: stX.userPool } := by
      apply vm_frame_free_concat st.frames stX k F
      · rw [hXf]
      · exact hk
      · rfl
    have hrun : vm_load_page st a b u = .ok (false,
        { stX with frames := st.frames, userPool := k :: stX.userPool }) := by
      simp only [vm_load_page, hfind, hstat, hAlloc, hRefetch, Option.getD_some,
        hLoad, hfree, reduceCtorEq, if_false, Bool.false_eq_true]
    rw [hrun]
    refine ⟨rfl, rfl, ?_⟩
    show some (k :: stX.userPool) = some (k :: rest)
    rw [hXu]
  · intro st a b u spte k rest hfind hstat hpool hmalloc hk hsp
    have hAlloc := vm_frame_alloc_pool st u k rest hpool hmalloc
    set F : FTE := { kpage := k, upage := u, tid := st.currentTid, is_pinned := true }
      with hF
    set st1 : VMState := { st with userPool := rest, frames := st.frames ++ [F] }
      with hst1
    have hRefetch : vm_supt_find st1 a u = some spte := hfind
    have hset : pagedir_set_page st1 b u k true = (false, st1) := by
      unfold pagedir_set_page
      rw [if_neg]
      show ¬ st.setPageOk = true
      rw [hsp]
      simp
    have hfree : vm_frame_free st1 k =
        .ok { st1 with frames := st.frames, userPool := k :: st1.userPool } := by
      apply vm_frame_free_concat st.frames st1 k F
      · rfl
      · exact hk
      · rfl
    have hrun : vm_load_page st a b u = .ok (false,
        { st1 with frames := st.frames, userPool := k :: st1.userPool }) := by
      simp only [vm_load_page, hfind, hstat, hAlloc, hRefetch, Option.getD_some,
        hset, hfree, reduceCtorEq, if_false, Bool.false_eq_true]
    rw [hrun]
    exact ⟨rfl, rfl, rfl⟩

/-- A FROM_FILESYS entry whose backing file is shorter than read_bytes,
for the C3 witness. -/
def c3Spte : SPTE :=
  { upage := 4096, kpage := none, status := .FROM_FILESYS, is_dirty := false,
    swap_index := 0, file := 7, file_offset := 0, read_bytes := 100,
    zero_bytes := PGSIZE - 100, writable := true }

/-- The C3 witness state: one file-backed page, file length 50 (short),
one free user page. -/
def c3State : VMState := { c4State with
  frames := [],
  supts := [(1, [c3Spte])],
  fileLens := [(7, 50)],
  userPool := [10, 11] }

/-- Witness for C3: on c3State parts one and two of the theorem apply
at concrete inputs; the no-entry part at upage 999 leaves the state
unchanged, and the short-read part reclaims frame 10. -/
theorem C3_load_page_failure_witness :
    vm_load_page c3State 1 1 999 = .ok (false, c3State) ∧
    resOf (vm_load_page c3State 1 1 4096) = some false ∧
    (stOf (vm_load_page c3State 1 1 4096)).map (fun s => s.frames) =
      some c3State.frames ∧
    (stOf (vm_load_page c3State 1 1 4096)).map (fun s => s.userPool) =
      some [10, 11] :=
  ⟨C3_load_page_failure_reclaims_frame.1 c3State 1 1 999 (by decide),
   (C3_load_page_failure_reclaims_frame.2.1 c3State 1 1 4096 c3Spte 10 [11]
     (by decide) (by decide) (by decide) (by decide) (by decide) (by decide)).1,
   (C3_load_page_failure_reclaims_frame.2.1 c3State 1 1 4096 c3Spte 10 [11]
     (by decide) (by decide) (by decide) (by decide) (by decide) (by decide)).2.1,
   (C3_load_page_failure_reclaims_frame.2.1 c3State 1 1 4096 c3Spte 10 [11]
     (by decide) (by decide) (by decide) (by decide) (by decide) (by decide)).2.2⟩

/-! ## Claim C5: sys_mmap rejections leave the state untouched -/

/-- Claim C5: sys_mmap returns -1 with the state unchanged (so no SPT
entry installed, no mmap descriptor recorded, existing mappings intact)
whenever upage is 0 or not page-aligned, fd is stdin or stdout, the
private reopen fails or the reopened file has length 0, or some page of
the would-be range already has an SPT entry. -/
theorem C5_sys_mmap_rejections :
    (∀ (st : VMState) (fd : Int) (u : Nat), u = 0 ∨ u % PGSIZE ≠ 0 →
      sys_mmap st fd u = .ok (-1, st)) ∧
    (∀ (st : VMState) (fd : Int) (u : Nat), fd = 0 ∨ fd = 1 →
      sys_mmap st fd u = .ok (-1, st)) ∧
    (∀ (st : VMState) (fd : Int) (u : Nat),
      (match find_file_desc st fd with
        | some fileId => file_reopen st fileId
        | none => none) = none →
      sys_mmap st fd u = .ok (-1, st)) ∧
    (∀ (st : VMState) (fd : Int) (u f : Nat),
      (match find_file_desc st fd with
        | some fileId => file_reopen st fileId
        | none => none) = some f →
      file_length st f = 0 →
      sys_mmap st fd u = .ok (-1, st)) ∧
    (∀ (st : VMState) (fd : Int) (u f : Nat),
      (match find_file_desc st fd with
        | some fileId => file_reopen st fileId
        | none => none) = some f →
      ((List.range ((file_length st f + PGSIZE - 1) / PGSIZE)).map (· * PGSIZE)).any
        (fun off => vm_supt_has_entry st st.currentTid (u + off)) = true →
      sys_mmap st fd u = .ok (-1, st)) := by
  refine ⟨?_, ?_, ?_, ?_, ?_⟩
  · intro st fd u h
    simp only [sys_mmap]
    rw [if_pos h]
  · intro st fd u h
    simp only [sys_mmap]
    by_cases h1 : u = 0 ∨ u % PGSIZE ≠ 0
    · rw [if_pos h1]
    · rw [if_neg h1, if_pos (by omega)]
  · intro st fd u hf
    simp only [sys_mmap]
    by_cases h1 : u = 0 ∨ u % PGSIZE ≠ 0
    · rw [if_pos h1]
    · rw [if_neg h1]
      by_cases h2 : fd ≤ 1
      · rw [if_pos h2]
      · rw [if_neg h2]
        simp only [hf]
  · intro st fd u f hf hlen
    simp only [sys_mmap]
    by_cases h1 : u = 0 ∨ u % PGSIZE ≠ 0
    · rw [if_pos h1]
    · rw [if_neg h1]
      by_cases h2 : fd ≤ 1
      · rw [if_pos h2]
      · rw [if_neg h2]
        simp only [hf]
        rw [if_pos hlen]
  · intro st fd u f hf hov
    simp only [sys_mmap]
    by_cases h1 : u = 0 ∨ u % PGSIZE ≠ 0
    · rw [if_pos h1]
    · rw [if_neg h1]
      by_cases h2 : fd ≤ 1
      · rw [if_pos h2]
      · rw [if_neg h2]
        simp only [hf]
        by_cases h3 : file_length st f = 0
        · rw [if_pos h3]
        · rw [if_neg h3, if_pos hov]

/-- The C5 witness base state: fd 4 reopens file 30 into handle 31. -/
def c5State : VMState := { c4State with
  frames := [],
  fdTable := [(4, 30)],
  reopenMap := [(30, 31)],
  fileLens := [(31, 6000)],
  supts := [(1, [])] }

/-- A zero-length variant of the C5 witness state. -/
def c5StateZero : VMState := { c5State with fileLens := [] }

/-- An overlapping variant of the C5 witness state: the page at 4096
already has an SPT entry. -/
def c5StateOv : VMState := { c5State with
  fileLens := [(31, 100)],
  supts := [(1, [c7Spte])] }

/-- Witness for C5: each rejection fires at a concrete input, returning
-1 and the unchanged state: misaligned upage, stdin fd, a descriptor
that does not reopen, a zero-length file, and an overlap (c5StateOv has
an SPT entry at 8192, the first page of the range). -/
theorem C5_sys_mmap_rejections_witness :
    sys_mmap c5State 4 100 = .ok (-1, c5State) ∧
    sys_mmap c5State 0 4096 = .ok (-1, c5State) ∧
    sys_mmap c5State 9 4096 = .ok (-1, c5State) ∧
    sys_mmap c5StateZero 4 4096 = .ok (-1, c5StateZero) ∧
    sys_mmap c5StateOv 4 4096 = .ok (-1, c5StateOv) :=
  ⟨C5_sys_mmap_rejections.1 c5State 4 100 (by decide),
   C5_sys_mmap_rejections.2.1 c5State 0 4096 (Or.inl rfl),
   C5_sys_mmap_rejections.2.2.1 c5State 9 4096 (by decide),
   C5_sys_mmap_rejections.2.2.2.1 c5StateZero 4 4096 31 (by decide) (by decide),
   C5_sys_mmap_rejections.2.2.2.2 c5StateOv 4 4096 31 (by decide) (by decide)⟩

/-! ## Claim C6: munmap write-back of swapped-out pages -/

lemma sptFind_eraseP_none (p : Nat) : ∀ (t : List SPTE),
    (t.map SPTE.upage).Nodup →
    sptFind (t.eraseP (fun e => e.upage = p)) p = none := by
  intro t
  induction t with
  | nil => intro _; rfl
  | cons e t ih =>
      intro hU
      simp only [List.map_cons, List.nodup_cons] at hU
      by_cases he : e.upage = p
      · rw [List.eraseP_cons_of_pos (by simp [he])]
        unfold sptFind
        rw [List.find?_eq_none]
        intro x hx
        simp only [decide_eq_true_eq]
        intro hxp
        exact hU.1 (by rw [he, ← hxp]; exact List.mem_map_of_mem SPTE.upage hx)
      · rw [List.eraseP_cons_of_neg (by simp [he])]
        unfold sptFind
        rw [List.find?_cons, decide_eq_false he]
        exact ih hU.2

/-- Claim C6: unmapping a page whose SPT entry is ON_SWAP writes PGSIZE
bytes of the page contents, read from the swap slot, to the backing
file at the page offset exactly when spte.dirty OR the hardware dirty
bit for upage is set; in both branches the swap slot ends up free, the
scratch kernel page is returned, and the SPT entry is removed. -/
theorem C6_munmap_on_swap_writeback (st : VMState) (a b p file off bytes : Nat)
    (spte : SPTE) (tmp : Nat) (restPool : List Nat)
    (hfind : vm_supt_find st a p = some spte)
    (hstat : spte.status = .ON_SWAP)
    (hslot : spte.swap_index < st.swapAvail.length)
    (hocc : st.swapAvail.get? spte.swap_index = some false)
    (hpool : st.kernelPool = tmp :: restPool)
    (hU : ((suptOf st a).map SPTE.upage).Nodup) :
    ((spte.is_dirty || pagedir_is_dirty (pdOf st b) spte.upage) = true →
      resOf (vm_supt_munmap st a b p file off bytes) = some true ∧
      (stOf (vm_supt_munmap st a b p file off bytes)).map (fun s => s.swapAvail) =
        some (st.swapAvail.set spte.swap_index true) ∧
      (stOf (vm_supt_munmap st a b p file off bytes)).map (fun s => s.kernelPool) =
        some st.kernelPool ∧
      (stOf (vm_supt_munmap st a b p file off bytes)).map
        (fun s => vm_supt_find s a p) = some none ∧
      (stOf (vm_supt_munmap st a b p file off bytes)).map (fun s => s.writeLog) =
        some (st.writeLog ++ [(file, off, PGSIZE, (List.range SECTORS_PER_PAGE).map
          (fun i => sectorAt st (spte.swap_index * SECTORS_PER_PAGE + i)))])) ∧
    ((spte.is_dirty || pagedir_is_dirty (pdOf st b) spte.upage) = false →
      resOf (vm_supt_munmap st a b p file off bytes) = some true ∧
      (stOf (vm_supt_munmap st a b p file off bytes)).map (fun s => s.swapAvail) =
        some (st.swapAvail.set spte.swap_index true) ∧
      (stOf (vm_supt_munmap st a b p file off bytes)).map
        (fun s => vm_supt_find s a p) = some none ∧
      (stOf (vm_supt_munmap st a b p file off bytes)).map (fun s => s.writeLog) =
        some st.writeLog) := by
  have hNF : ¬ spte.status = .ON_FRAME := by rw [hstat]; intro hh; cases hh
  have hfound : ∀ (stR : VMState),
      vm_supt_find (setSupt stR a ((suptOf st a).eraseP (fun e => e.upage = p))) a p =
        none := by
    intro stR
    show sptFind (suptOf (setSupt stR a _) a) p = none
    unfold suptOf setSupt
    simp only [lookupA_setA_self, Option.getD_some]
    exact sptFind_eraseP_none p (suptOf st a) hU
  constructor
  · intro hd
    have hswin : vm_swap_in { st with kernelPool := restPool } spte.swap_index =
        .ok { st with
          kernelPool := restPool,
          swapAvail := st.swapAvail.set spte.swap_index true } := by
      simp only [vm_swap_in, bitmap_test, bitmap_set, hocc, hslot, if_true,
        Bool.false_eq_true, if_false]
    have hrun : vm_supt_munmap st a b p file off bytes = .ok (true,
        setSupt { st with
            kernelPool := tmp :: restPool,
            swapAvail := st.swapAvail.set spte.swap_index true,
            writeLog := st.writeLog ++ [(file, off, PGSIZE,
              (List.range SECTORS_PER_PAGE).map
                (fun i => sectorAt st (spte.swap_index * SECTORS_PER_PAGE + i)))] } a
          ((suptOf st a).eraseP (fun e => e.upage = p))) := by
      simp only [vm_supt_munmap, hfind, hstat, hNF, if_false, reduceCtorEq, hd,
        if_true, hpool, hswin, file_write_at]
      rfl
    rw [hrun]
    refine ⟨rfl, rfl, ?_, ?_, rfl⟩
    · show some (tmp :: restPool) = some st.kernelPool
      rw [hpool]
    · show some (vm_supt_find (setSupt _ a _) a p) = some none
      rw [hfound _]
  · intro hd
    have hswfree : vm_swap_free st spte.swap_index =
        .ok { st with swapAvail := st.swapAvail.set spte.swap_index true } := by
      simp only [vm_swap_free, bitmap_test, bitmap_set, hocc, hslot, if_true,
        Bool.false_eq_true, if_false]
    have hrun : vm_supt_munmap st a b p file off bytes = .ok (true,
        setSupt { st with swapAvail := st.swapAvail.set spte.swap_index true } a
          ((suptOf st a).eraseP (fun e => e.upage = p))) := by
      simp only [vm_supt_munmap, hfind, hstat, hNF, if_false, reduceCtorEq, hd,
        Bool.false_eq_true, hswfree]
      rfl
    rw [hrun]
    refine ⟨rfl, rfl, ?_, rfl⟩
    show some (vm_supt_find (setSupt _ a _) a p) = some none
    rw [hfound _]

/-- The swapped-out SPT entry of the C6 witness: dirty, slot 1. -/
def c6Spte : SPTE :=
  { upage := 4096, kpage := none, status := .ON_SWAP, is_dirty := true,
    swap_index := 1, file := 0, file_offset := 0, read_bytes := 0,
    zero_bytes := 0, writable := true }

/-- The C6 witness state: slot 1 occupied with known sector contents, a
scratch kernel page available. -/
def c6State : VMState := { c4State with
  frames := [],
  supts := [(1, [c6Spte])],
  pagedirs := [(1, ⟨[], [], []⟩)],
  swapAvail := [true, false],
  blockSize := 16,
  sectors := [(8, 100), (9, 101)],
  kernelPool := [50] }

/-- A clean variant of the C6 witness entry and state. -/
def c6SpteClean : SPTE := { c6Spte with is_dirty := false }

/-- The clean C6 witness state. -/
def c6StateClean : VMState := { c6State with supts := [(1, [c6SpteClean])] }

/-- Witness for C6: on the dirty state the slot contents are written to
the file and the slot is freed; on the clean state nothing is written
and the slot is freed; the entry is gone in both runs. -/
theorem C6_munmap_on_swap_writeback_witness :
    resOf (vm_supt_munmap c6State 1 1 4096 31 0 PGSIZE) = some true ∧
    (stOf (vm_supt_munmap c6State 1 1 4096 31 0 PGSIZE)).map (fun s => s.writeLog) =
      some (c6State.writeLog ++ [(31, 0, PGSIZE, (List.range SECTORS_PER_PAGE).map
        (fun i => sectorAt c6State (c6Spte.swap_index * SECTORS_PER_PAGE + i)))]) ∧
    (stOf (vm_supt_munmap c6State 1 1 4096 31 0 PGSIZE)).map
      (fun s => vm_supt_find s 1 4096) = some none ∧
    (stOf (vm_supt_munmap c6StateClean 1 1 4096 31 0 PGSIZE)).map
      (fun s => s.writeLog) = some c6StateClean.writeLog ∧
    (stOf (vm_supt_munmap c6StateClean 1 1 4096 31 0 PGSIZE)).map
      (fun s => s.swapAvail) = some (c6StateClean.swapAvail.set 1 true) :=
  have hdirty := (C6_munmap_on_swap_writeback c6State 1 1 4096 31 0 PGSIZE c6Spte
    50 [] (by decide) (by decide) (by decide) (by decide) (by decide) (by decide)).1
    (by decide)
  have hclean := (C6_munmap_on_swap_writeback c6StateClean 1 1 4096 31 0 PGSIZE
    c6SpteClean 50 [] (by decide) (by decide) (by decide) (by decide) (by decide)
    (by decide)).2 (by decide)
  ⟨hdirty.1, hdirty.2.2.2.2, hdirty.2.2.2.1, hclean.2.2.2, hclean.2.1⟩

/-! ## Claim C8: kpage non-NULL iff status ON_FRAME -/

/-- Invariant (c) of spec section 3 for one SPT: an entry has a
non-NULL kpage exactly when its status is ON_FRAME. -/
def kpageInv (t : List SPTE) : Prop :=
  ∀ e ∈ t, (e.kpage ≠ none ↔ e.status = .ON_FRAME)

/-- The invariant over every SPT recorded in the state. -/
def kpageInvAll (st : VMState) : Prop :=
  ∀ q ∈ st.supts, kpageInv q.2

instance kpageInvDec (t : List SPTE) : Decidable (kpageInv t) := by
  unfold kpageInv
  infer_instance

instance kpageInvAllDec (st : VMState) : Decidable (kpageInvAll st) := by
  unfold kpageInvAll
  infer_instance

lemma mem_setA {α : Type} (l : List (Nat × α)) (k : Nat) (v : α) :
    ∀ q ∈ setA l k v, q ∈ l ∨ q = (k, v) := by
  induction l with
  | nil =>
      intro q hq
      simp [setA] at hq
      right; exact hq
  | cons hd t ih =>
      obtain ⟨k2, v2⟩ := hd
      intro q hq
      by_cases hk : k2 = k
      · simp only [setA, if_pos hk] at hq
        rcases List.mem_cons.mp hq with hq | hq
        · right; rw [hq, hk]
        · left; exact List.mem_cons_of_mem _ hq
      · simp only [setA, if_neg hk] at hq
        rcases List.mem_cons.mp hq with hq | hq
        · left; rw [hq]; exact List.mem_cons_self _ _
        · rcases ih q hq with h | h
          · left; exact List.mem_cons_of_mem _ h
          · right; exact h

lemma lookupA_mem {α : Type} (l : List (Nat × α)) (k : Nat) (v : α)
    (h : lookupA l k = some v) : (k, v) ∈ l := by
  induction l with
  | nil => simp [lookupA] at h
  | cons hd t ih =>
      obtain ⟨k2, v2⟩ := hd
      by_cases hk : k2 = k
      · simp only [lookupA, if_pos hk] at h
        injection h with h
        rw [← h, hk]
        exact List.mem_cons_self _ _
      · simp only [lookupA, if_neg hk] at h
        exact List.mem_cons_of_mem _ (ih h)

lemma kpageInvAll_suptOf (st : VMState) (a : Nat) (h : kpageInvAll st) :
    kpageInv (suptOf st a) := by
  unfold suptOf
  cases hl : lookupA st.supts a with
  | none => intro e he; simp at he
  | some t => exact h (a, t) (lookupA_mem _ _ _ hl)

lemma kpageInvAll_setSupt (st : VMState) (a : Nat) (t : List SPTE)
    (hInv : kpageInvAll st) (ht : kpageInv t) : kpageInvAll (setSupt st a t) := by
  intro q hq
  rcases mem_setA st.supts a t q hq with h | h
  · exact hInv q h
  · rw [h]; exact ht

lemma kpageInvAll_of_supts_eq (st st2 : VMState) (hsup : st2.supts = st.supts)
    (h : kpageInvAll st) : kpageInvAll st2 := by
  intro q hq
  rw [hsup] at hq
  exact h q hq

lemma kpageInv_update_swap (t : List SPTE) (p i : Nat) (h : kpageInv t) :
    kpageInv (t.map (fun e => if e.upage = p then
      { e with kpage := none, status := .ON_SWAP, swap_index := i } else e)) := by
  intro x hx
  obtain ⟨e, he, hex⟩ := List.mem_map.mp hx
  by_cases hp : e.upage = p
  · rw [← hex, if_pos hp]
    simp
  · rw [← hex, if_neg hp]
    exact h e he

lemma kpageInv_update_dirty (t : List SPTE) (p : Nat) (v : Bool) (h : kpageInv t) :
    kpageInv (t.map (fun e => if e.upage = p then
      { e with is_dirty := e.is_dirty || v } else e)) := by
  intro x hx
  obtain ⟨e, he, hex⟩ := List.mem_map.mp hx
  by_cases hp : e.upage = p
  · rw [← hex, if_pos hp]
    exact h e he
  · rw [← hex, if_neg hp]
    exact h e he

lemma kpageInv_update_frame (t : List SPTE) (p fp : Nat) (h : kpageInv t) :
    kpageInv (t.map (fun e => if e.upage = p then
      { e with kpage := some fp, status := .ON_FRAME } else e)) := by
  intro x hx
  obtain ⟨e, he, hex⟩ := List.mem_map.mp hx
  by_cases hp : e.upage = p
  · rw [← hex, if_pos hp]
    simp
  · rw [← hex, if_neg hp]
    exact h e he

lemma kpageInv_concat (t : List SPTE) (e : SPTE) (h : kpageInv t)
    (he : e.kpage ≠ none ↔ e.status = .ON_FRAME) : kpageInv (t ++ [e]) := by
  intro x hx
  rcases List.mem_append.mp hx with hx | hx
  · exact h x hx
  · rw [List.mem_singleton.mp hx]
    exact he

lemma invAll_set_swap (st : VMState) (a p i : Nat) (h : kpageInvAll st) :
    kpageInvAll (vm_supt_set_swap st a p i).2 := by
  unfold vm_supt_set_swap
  split
  · exact h
  · exact kpageInvAll_setSupt st a _ h
      (kpageInv_update_swap _ p i (kpageInvAll_suptOf st a h))

lemma invAll_set_dirty (st : VMState) (a p : Nat) (v : Bool) (st2 : VMState)
    (hok : vm_supt_set_dirty st a p v = .ok st2) (h : kpageInvAll st) :
    kpageInvAll st2 := by
  unfold vm_supt_set_dirty at hok
  split at hok
  · exact absurd hok (by simp)
  · injection hok with hok
    rw [← hok]
    exact kpageInvAll_setSupt st a _ h
      (kpageInv_update_dirty _ p v (kpageInvAll_suptOf st a h))

lemma vm_frame_alloc_finish_supts (st : VMState) (u fp : Nat) (r : Option Nat)
    (st2 : VMState) (h : vm_frame_alloc_finish st u fp = .ok (r, st2)) :
    st2.supts = st.supts := by
  unfold vm_frame_alloc_finish at h
  split at h
  · injection h with h; cases h; rfl
  · injection h with h; cases h; rfl

lemma invAll_frame_alloc (st : VMState) (u : Nat) (r : Option Nat) (st2 : VMState)
    (h : vm_frame_alloc st u = .ok (r, st2)) (hInv : kpageInvAll st) :
    kpageInvAll st2 := by
  simp only [vm_frame_alloc] at h
  split at h
  · next fp rest hpool =>
      exact kpageInvAll_of_supts_eq _ _ (vm_frame_alloc_finish_supts _ _ _ _ _ h) hInv
  · next hpool =>
      split at h
      · exact absurd h (by simp)
      · next victim stA heqA =>
          split at h
          · exact absurd h (by simp)
          · next idx stB heqB =>
              split at h
              · exact absurd h (by simp)
              · next stC heqC =>
                  split at h
                  · exact absurd h (by simp)
                  · next stD heqD =>
                      split at h
                      · exact absurd h (by simp)
                      · next fp rest2 hpool2 =>
                          have hA := frame_to_be_evicted_state _ _ _ _ heqA
                          have hB := vm_swap_out_state _ _ _ _ heqB
                          have hInvA : kpageInvAll stA :=
                            kpageInvAll_of_supts_eq _ _ (by rw [hA]) hInv
                          have hInvB : kpageInvAll stB := by
                            apply kpageInvAll_of_supts_eq _ _ (by rw [hB]) ?_
                            exact kpageInvAll_of_supts_eq _ _ rfl hInvA
                          have hInvSw := invAll_set_swap stB victim.tid victim.upage
                            idx hInvB
                          have hInvC := invAll_set_dirty _ _ _ _ _ heqC hInvSw
                          have hD := vm_frame_do_free_state _ _ _ _ heqD
                          have hInvD : kpageInvAll stD :=
                            kpageInvAll_of_supts_eq _ _ (by rw [hD]) hInvC
                          have hsup := vm_frame_alloc_finish_supts _ _ _ _ _ h
                          exact kpageInvAll_of_supts_eq _ _ hsup hInvD

lemma vm_load_page_from_filesys_state (st : VMState) (spte : SPTE) (b : Bool)
    (st2 : VMState) (h : vm_load_page_from_filesys st spte = .ok (b, st2)) :
    st2 = { st with filePos := st2.filePos } := by
  simp only [vm_load_page_from_filesys, file_seek, file_read] at h
  split at h
  · injection h with h; cases h; rfl
  · split at h
    · injection h with h; cases h; rfl
    · exact absurd h (by simp)

lemma invAll_load_page (st : VMState) (a b u : Nat) (st2 : VMState)
    (h : vm_load_page st a b u = .ok (true, st2)) (hInv : kpageInvAll st) :
    kpageInvAll st2 := by
  have hpdsup : ∀ (stq : VMState) (w2 : Bool) (fp2 : Nat),
      (pagedir_set_page stq b u fp2 w2).2.supts = stq.supts := by
    intro stq w2 fp2
    unfold pagedir_set_page
    split
    · rfl
    · rfl
  simp only [vm_load_page] at h
  split at h
  · exact absurd h (by simp)
  · next spte0 hfind =>
      split at h
      · injection h with h
        cases h
        exact hInv
      · split at h
        · exact absurd h (by simp)
        · exact absurd h (by simp)
        · next fp st1 halloc =>
            have hInv1 : kpageInvAll st1 := invAll_frame_alloc _ _ _ _ halloc hInv
            cases hstatus : ((vm_supt_find st1 a u).getD spte0).status with
            | ALL_ZEROS =>
                simp only [hstatus] at h
                have hInvP : kpageInvAll st1 := hInv1
                split at h
                · next st3 hset =>
                    split at h
                    · exact absurd h (by simp)
                    · exact absurd h (by simp)
                · next st3 hset =>
                    split at h
                    · exact absurd h (by simp)
                    · next st6 hunpin =>
                        injection h with h
                        injection h with hb hst
                        cases hst
                        have hsup3 : st3.supts = st1.supts := by
                          rw [← show (pagedir_set_page st1 b u fp true).2 = st3 from by rw [hset]]
                          exact hpdsup st1 true fp
                        have hInv3 : kpageInvAll st3 :=
                          kpageInvAll_of_supts_eq _ _ hsup3 hInvP
                        have hInv4 : kpageInvAll (setSupt st3 a
                            ((suptOf st3 a).map (fun e => if e.upage = u then
                              { e with kpage := some fp, status := .ON_FRAME }
                              else e))) :=
                          kpageInvAll_setSupt st3 a _ hInv3
                            (kpageInv_update_frame _ u fp
                              (kpageInvAll_suptOf st3 a hInv3))
                        apply kpageInvAll_of_supts_eq _ _ ?_ hInv4
                        rw [vm_frame_set_pinned_state _ _ _ _ hunpin]
                        rfl
            | ON_FRAME =>
                simp only [hstatus] at h
                have hInvP : kpageInvAll st1 := hInv1
                split at h
                · next st3 hset =>
                    split at h
                    · exact absurd h (by simp)
                    · exact absurd h (by simp)
                · next st3 hset =>
                    split at h
                    · exact absurd h (by simp)
                    · next st6 hunpin =>
                        injection h with h
                        injection h with hb hst
                        cases hst
                        have hsup3 : st3.supts = st1.supts := by
                          rw [← show (pagedir_set_page st1 b u fp true).2 = st3 from by rw [hset]]
                          exact hpdsup st1 true fp
                        have hInv3 : kpageInvAll st3 :=
                          kpageInvAll_of_supts_eq _ _ hsup3 hInvP
                        have hInv4 : kpageInvAll (setSupt st3 a
                            ((suptOf st3 a).map (fun e => if e.upage = u then
                              { e with kpage := some fp, status := .ON_FRAME }
                              else e))) :=
                          kpageInvAll_setSupt st3 a _ hInv3
                            (kpageInv_update_frame _ u fp
                              (kpageInvAll_suptOf st3 a hInv3))
                        apply kpageInvAll_of_supts_eq _ _ ?_ hInv4
                        rw [vm_frame_set_pinned_state _ _ _ _ hunpin]
                        rfl
            | ON_SWAP =>
                simp only [hstatus] at h
                cases hq : vm_swap_in st1 ((vm_supt_find st1 a u).getD spte0).swap_index
                  with
                | error e =>
                    simp only [hq] at h
                    exact absurd h (by simp)
                | ok stQ =>
                    simp only [hq] at h
                    have hInvP : kpageInvAll stQ := by
                      apply kpageInvAll_of_supts_eq _ _ ?_ hInv1
                      rw [vm_swap_in_state _ _ _ hq]
                    split at h
                    · next st3 hset =>
                        split at h
                        · exact absurd h (by simp)
                        · exact absurd h (by simp)
                    · next st3 hset =>
                        split at h
                        · exact absurd h (by simp)
                        · next st6 hunpin =>
                            injection h with h
                            injection h with hb hst
                            cases hst
                            have hsup3 : st3.supts = stQ.supts := by
                              rw [← show (pagedir_set_page stQ b u fp true).2 = st3 from by rw [hset]]
                              exact hpdsup stQ true fp
                            have hInv3 : kpageInvAll st3 :=
                              kpageInvAll_of_supts_eq _ _ hsup3 hInvP
                            have hInv4 : kpageInvAll (setSupt st3 a
                                ((suptOf st3 a).map (fun e => if e.upage = u then
                                  { e with kpage := some fp, status := .ON_FRAME }
                                  else e))) :=
                              kpageInvAll_setSupt st3 a _ hInv3
                                (kpageInv_update_frame _ u fp
                                  (kpageInvAll_suptOf st3 a hInv3))
                            apply kpageInvAll_of_supts_eq _ _ ?_ hInv4
                            rw [vm_frame_set_pinned_state _ _ _ _ hunpin]
                            rfl
            | FROM_FILESYS =>
                simp only [hstatus] at h
                cases hq : vm_load_page_from_filesys st1
                    ((vm_supt_find st1 a u).getD spte0) with
                | error e =>
                    simp only [hq] at h
                    exact absurd h (by simp)
                | ok pq =>
                    obtain ⟨okb, stQ⟩ := pq
                    have hInvP : kpageInvAll stQ := by
                      apply kpageInvAll_of_supts_eq _ _ ?_ hInv1
                      rw [vm_load_page_from_filesys_state _ _ _ _ hq]
                    cases okb with
                    | false =>
                        simp only [hq] at h
                        split at h
                        · exact absurd h (by simp)
                        · exact absurd h (by simp)
                    | true =>
                        simp only [hq] at h
                        split at h
                        · next st3 hset =>
                            split at h
                            · exact absurd h (by simp)
                            · exact absurd h (by simp)
                        · next st3 hset =>
                            split at h
                            · exact absurd h (by simp)
                            · next st6 hunpin =>
                                injection h with h
                                injection h with hb hst
                                cases hst
                                have hsup3 : st3.supts = stQ.supts := by
                                  rw [← show (pagedir_set_page stQ b u fp (((vm_supt_find st1 a u).getD spte0).writable)).2 = st3 from by rw [hset]]
                                  exact hpdsup stQ (((vm_supt_find st1 a u).getD spte0).writable) fp
                                have hInv3 : kpageInvAll st3 :=
                                  kpageInvAll_of_supts_eq _ _ hsup3 hInvP
                                have hInv4 : kpageInvAll (setSupt st3 a
                                    ((suptOf st3 a).map (fun e => if e.upage = u then
                                      { e with kpage := some fp, status := .ON_FRAME }
                                      else e))) :=
                                  kpageInvAll_setSupt st3 a _ hInv3
                                    (kpageInv_update_frame _ u fp
                                      (kpageInvAll_suptOf st3 a hInv3))
                                apply kpageInvAll_of_supts_eq _ _ ?_ hInv4
                                rw [vm_frame_set_pinned_state _ _ _ _ hunpin]
                                rfl

/-- Claim C8: every SPT operation preserves invariant (c): kpage is
non-NULL iff status is ON_FRAME.  The conjuncts cover install_frame
with a non-NULL kpage, install_zeropage, install_filesys, set_swap and
set_dirty (the SPT transitions of the eviction path), a completed
vm_frame_alloc (hence the whole eviction path including its transition
to ON_SWAP), and a successful vm_load_page. -/
theorem C8_kpage_iff_on_frame_preserved :
    (∀ (st : VMState) (a u k : Nat), kpageInvAll st →
      kpageInvAll (vm_supt_install_frame st a u (some k)).2) ∧
    (∀ (st : VMState) (a u : Nat) (st2 : VMState), kpageInvAll st →
      vm_supt_install_zeropage st a u = .ok st2 → kpageInvAll st2) ∧
    (∀ (st : VMState) (a u f off rb zb : Nat) (w : Bool) (st2 : VMState),
      kpageInvAll st →
      vm_supt_install_filesys st a u f off rb zb w = .ok st2 → kpageInvAll st2) ∧
    (∀ (st : VMState) (a p i : Nat), kpageInvAll st →
      kpageInvAll (vm_supt_set_swap st a p i).2) ∧
    (∀ (st : VMState) (a p : Nat) (v : Bool) (st2 : VMState), kpageInvAll st →
      vm_supt_set_dirty st a p v = .ok st2 → kpageInvAll st2) ∧
    (∀ (st : VMState) (u : Nat) (r : Option Nat) (st2 : VMState), kpageInvAll st →
      vm_frame_alloc st u = .ok (r, st2) → kpageInvAll st2) ∧
    (∀ (st : VMState) (a b u : Nat) (st2 : VMState), kpageInvAll st →
      vm_load_page st a b u = .ok (true, st2) → kpageInvAll st2) := by
  refine ⟨?_, ?_, ?_, ?_, ?_, ?_, ?_⟩
  · intro st a u k hInv
    unfold vm_supt_install_frame
    split
    · exact hInv
    · exact kpageInvAll_setSupt st a _ hInv
        (kpageInv_concat _ _ (kpageInvAll_suptOf st a hInv) (by simp))
  · intro st a u st2 hInv hok
    unfold vm_supt_install_zeropage at hok
    split at hok
    · exact absurd hok (by simp)
    · injection hok with hok
      rw [← hok]
      exact kpageInvAll_setSupt st a _ hInv
        (kpageInv_concat _ _ (kpageInvAll_suptOf st a hInv) (by simp))
  · intro st a u f off rb zb w st2 hInv hok
    unfold vm_supt_install_filesys at hok
    split at hok
    · exact absurd hok (by simp)
    · injection hok with hok
      rw [← hok]
      exact kpageInvAll_setSupt st a _ hInv
        (kpageInv_concat _ _ (kpageInvAll_suptOf st a hInv) (by simp))
  · intro st a p i hInv
    exact invAll_set_swap st a p i hInv
  · intro st a p v st2 hInv hok
    exact invAll_set_dirty st a p v st2 hok hInv
  · intro st u r st2 hInv hok
    exact invAll_frame_alloc st u r st2 hok hInv
  · intro st a b u st2 hInv hok
    exact invAll_load_page st a b u st2 hok hInv

/-- Witness for C8: the invariant holds on c7State and is preserved by
a concrete install_frame, set_swap, frame allocation (c9State) and a
successful load of the already-resident page. -/
theorem C8_kpage_iff_on_frame_witness :
    kpageInvAll (vm_supt_install_frame c7State 1 8192 (some 20)).2 ∧
    kpageInvAll (vm_supt_set_swap c7State 1 4096 0).2 ∧
    kpageInvAll c9StateAfter ∧
    kpageInvAll c7State :=
  ⟨C8_kpage_iff_on_frame_preserved.1 c7State 1 8192 20 (by decide),
   C8_kpage_iff_on_frame_preserved.2.2.2.1 c7State 1 4096 0 (by decide),
   C8_kpage_iff_on_frame_preserved.2.2.2.2.2.1 c9State 4096 (some 10) c9StateAfter
     (by decide) (by decide),
   C8_kpage_iff_on_frame_preserved.2.2.2.2.2.2 c7State 1 1 4096 c7State
     (by decide) (by decide)⟩

end PintosVM
